import Mathlib

/-!
# Verification of the doc_crawler persistence layer

Shallow embedding of the repository/coordination layer of `doc_crawler`
(MongoDB repositories under `src/doc_crawler/database/repositories/`),
together with proofs settling the frozen claims C1..C10.

Conventions of the embedding:
* `datetime` values are abstract clock ticks (`Nat`, seconds).
* `ObjectId`s are opaque numerals (`Nat`); `str(oid)` is modelled by the
  decimal rendering of the numeral.
* BSON documents are association lists `List (String × BVal)`; Python
  `dict` assignment replaces the first binding of a key or appends.
* Async I/O is elided: every repository operation is a pure state
  transition on the collection contents, which models the sequential
  (single worker, no interleaving) execution of the Python code.
-/

namespace DocCrawler

/-- A BSON/JSON-ish value as handled by `async_mongo_repository.py`:
strings, integers, booleans, `None`, datetimes, ObjectIds, arrays and
sub-documents. -/
inductive BVal where
  | vNull : BVal
  | vBool : Bool → BVal
  | vInt : Int → BVal
  | vStr : String → BVal
  | vTime : Nat → BVal
  | vId : Nat → BVal
  | vArr : List BVal → BVal
  | vObj : List (String × BVal) → BVal
deriving Repr

/-- A document body or filter: a Python `dict` with string keys, in
insertion order (Python dicts preserve insertion order, keys unique). -/
abbrev Doc := List (String × BVal)

/-- `d.get(k)`: first binding of key `k`. -/
def getVal (d : Doc) (k : String) : Option BVal :=
  match d.find? (fun kv => kv.1 = k) with
  | some kv => some kv.2
  | none => none

/-- `k in d`. -/
def hasKey (d : Doc) (k : String) : Bool :=
  (getVal d k).isSome

/-- Python `d[k] = v`: replace the value of an existing key in place,
otherwise append the new binding at the end. -/
def setVal (d : Doc) (k : String) (v : BVal) : Doc :=
  match d with
  | [] => [(k, v)]
  | (k', v') :: rest =>
      if k' = k then (k, v) :: rest else (k', v') :: setVal rest k v

/-- `key.startswith('$')`: whether the first character is the reserved
operator sigil. -/
def startsWithDollar (s : String) : Bool :=
  match s.data with
  | c :: _ => c = '$'
  | [] => false

/-- `AsyncMongoDBRepository._sanitize_input` on a single value sitting in a
dict entry: sub-dicts are sanitized recursively; for list values each item
is sanitized when it is a dict and passed through unchanged otherwise
(nested lists are not recursed into); all other values pass through. -/
def sanitizeVal : BVal → BVal
  | .vObj d =>
      .vObj (d.attach.foldr
        (fun x acc =>
          if startsWithDollar x.1.1 then acc
          else (x.1.1, sanitizeVal x.1.2) :: acc)
        [])
  | .vArr xs =>
      .vArr (xs.attach.map
        (fun x =>
          match _hx : x.1 with
          | .vObj d => sanitizeVal (.vObj d)
          | y => y))
  | v => v
termination_by v => sizeOf v
decreasing_by
  · have h1 := List.sizeOf_lt_of_mem x.2
    simp only [BVal.vObj.sizeOf_spec]
    have h2 : sizeOf x.1.2 < sizeOf x.1 := by
      obtain ⟨a, b⟩ := x.1
      simp only [Prod.mk.sizeOf_spec]
      omega
    omega
  · have h1 := List.sizeOf_lt_of_mem x.2
    have h2 : sizeOf (BVal.vObj d) = sizeOf x.1 := by rw [_hx]
    simp only [BVal.vArr.sizeOf_spec]
    omega

/-- `AsyncMongoDBRepository._sanitize_input` on a document: keys beginning
with `$` are dropped, remaining values sanitized per `sanitizeVal`. -/
def sanitizeDoc (d : Doc) : Doc :=
  match sanitizeVal (.vObj d) with
  | .vObj d' => d'
  | _ => []

namespace Hash

/-! ### Cryptographic digests

`AsyncMongoDBRepository._generate_content_hash` is
`hashlib.sha256(content.encode('utf-8')).hexdigest()` and
`AlertsRepository._calculate_alert_hash` uses
`hashlib.md5(...).hexdigest()`.  Both digests are implemented here
bit-for-bit over `Nat` with explicit reduction modulo `2^32`. -/

/-- 2^32, the modulus of 32-bit machine arithmetic. -/
def m32 : Nat := 4294967296

/-- 32-bit addition. -/
def add32 (a b : Nat) : Nat := (a + b) % m32

/-- Bitwise complement of a 32-bit value. -/
def not32 (x : Nat) : Nat := m32 - 1 - x

/-- Right-rotation of a 32-bit value by `n < 32` bits. -/
def rotr (x n : Nat) : Nat := x / 2 ^ n + x % 2 ^ n * 2 ^ (32 - n)

/-- Left-rotation of a 32-bit value by `n < 32` bits. -/
def rotl (x n : Nat) : Nat := rotr x (32 - n)

/-- Logical right shift. -/
def shr (x n : Nat) : Nat := x / 2 ^ n

/-- UTF-8 encoding of one Unicode code point. -/
def utf8Char (n : Nat) : List Nat :=
  if n < 128 then [n]
  else if n < 2048 then [192 + n / 64, 128 + n % 64]
  else if n < 65536 then [224 + n / 4096, 128 + n / 64 % 64, 128 + n % 64]
  else [240 + n / 262144, 128 + n / 4096 % 64, 128 + n / 64 % 64, 128 + n % 64]

/-- `s.encode('utf-8')` as a list of byte values. -/
def utf8Bytes (s : String) : List Nat :=
  s.data.foldr (fun c acc => utf8Char c.toNat ++ acc) []

/-- `k` bytes of `n`, big-endian. -/
def beBytes (k n : Nat) : List Nat :=
  (List.range k).map (fun i => n / 2 ^ (8 * (k - 1 - i)) % 256)

/-- `k` bytes of `n`, little-endian. -/
def leBytes (k n : Nat) : List Nat :=
  (List.range k).map (fun i => n / 2 ^ (8 * i) % 256)

/-- Group bytes into 32-bit words, big-endian. -/
def wordsBE : List Nat → List Nat
  | a :: b :: c :: d :: rest => (((a * 256 + b) * 256 + c) * 256 + d) :: wordsBE rest
  | _ => []

/-- Group bytes into 32-bit words, little-endian. -/
def wordsLE : List Nat → List Nat
  | a :: b :: c :: d :: rest => (a + 256 * (b + 256 * (c + 256 * d))) :: wordsLE rest
  | _ => []

/-- Split a word list into 16-word blocks (structural recursion so that the
definition evaluates by reduction; inputs always have a multiple of 16
words). -/
def blocks16 : List Nat → List (List Nat)
  | w1 :: w2 :: w3 :: w4 :: w5 :: w6 :: w7 :: w8 ::
    w9 :: w10 :: w11 :: w12 :: w13 :: w14 :: w15 :: w16 :: rest =>
      [w1, w2, w3, w4, w5, w6, w7, w8, w9, w10, w11, w12, w13, w14, w15, w16] ::
        blocks16 rest
  | [] => []
  | ws => [ws]

/-- Merkle–Damgård padding: `0x80`, zeros, then the bit length in 8 bytes
rendered by `lenBytes` (big-endian for SHA-256, little-endian for MD5). -/
def padBytes (lenBytes : Nat → Nat → List Nat) (msg : List Nat) : List Nat :=
  let L := msg.length
  let zeros := (119 - L % 64) % 64
  msg ++ 128 :: List.replicate zeros 0 ++ lenBytes 8 (8 * L)

/-- The 64 SHA-256 round constants (fractional parts of the cube roots of
the first 64 primes). -/
def shaK : List Nat :=
  [1116352408, 1899447441, 3049323471, 3921009573, 961987163, 1508970993,
   2453635748, 2870763221, 3624381080, 310598401, 607225278, 1426881987,
   1925078388, 2162078206, 2614888103, 3248222580, 3835390401, 4022224774,
   264347078, 604807628, 770255983, 1249150122, 1555081692, 1996064986,
   2554220882, 2821834349, 2952996808, 3210313671, 3336571891, 3584528711,
   113926993, 338241895, 666307205, 773529912, 1294757372, 1396182291,
   1695183700, 1986661051, 2177026350, 2456956037, 2730485921, 2820302411,
   3259730800, 3345764771, 3516065817, 3600352804, 4094571909, 275423344,
   430227734, 506948616, 659060556, 883997877, 958139571, 1322822218,
   1537002063, 1747873779, 1955562222, 2024104815, 2227730452, 2361852424,
   2428436474, 2756734187, 3204031479, 3329325298]

/-- The SHA-256 initial hash value. -/
def shaH0 : List Nat :=
  [1779033703, 3144134277, 1013904242, 2773480762,
   1359893119, 2600822924, 528734635, 1541459225]

/-- Extend a 16-word block to the 64-word SHA-256 message schedule. -/
def shaSchedule (block : List Nat) : List Nat :=
  (List.range 48).foldl
    (fun w _ =>
      let n := w.length
      let s0 :=
        Nat.xor (Nat.xor (rotr (w.getD (n - 15) 0) 7) (rotr (w.getD (n - 15) 0) 18))
          (shr (w.getD (n - 15) 0) 3)
      let s1 :=
        Nat.xor (Nat.xor (rotr (w.getD (n - 2) 0) 17) (rotr (w.getD (n - 2) 0) 19))
          (shr (w.getD (n - 2) 0) 10)
      w ++ [add32 (add32 (w.getD (n - 16) 0) s0) (add32 (w.getD (n - 7) 0) s1)])
    block

/-- One SHA-256 block compression. -/
def shaCompress (h : List Nat) (block : List Nat) : List Nat :=
  let w := shaSchedule block
  let final := (List.range 64).foldl
    (fun st i =>
      match st with
      | [a, b, c, d, e, f, g, hh] =>
        let S1 := Nat.xor (Nat.xor (rotr e 6) (rotr e 11)) (rotr e 25)
        let ch := Nat.xor (Nat.land e f) (Nat.land (not32 e) g)
        let t1 := add32 (add32 (add32 hh S1) (add32 ch (shaK.getD i 0))) (w.getD i 0)
        let S0 := Nat.xor (Nat.xor (rotr a 2) (rotr a 13)) (rotr a 22)
        let maj := Nat.xor (Nat.xor (Nat.land a b) (Nat.land a c)) (Nat.land b c)
        let t2 := add32 S0 maj
        [add32 t1 t2, a, b, c, add32 d t1, e, f, g]
      | st => st)
    h
  List.zipWith add32 h final

/-- A lowercase hex digit. -/
def hexDigit (n : Nat) : Char :=
  if n < 10 then Char.ofNat (48 + n) else Char.ofNat (87 + n)

/-- Eight lowercase hex digits of a 32-bit word, big-endian. -/
def hex8 (w : Nat) : String :=
  String.mk ((List.range 8).map (fun i => hexDigit (w / 16 ^ (7 - i) % 16)))

/-- Two lowercase hex digits of a byte. -/
def hex2 (b : Nat) : String :=
  String.mk [hexDigit (b / 16 % 16), hexDigit (b % 16)]

/-- The SHA-256 state words for a byte message. -/
def shaWords (msg : List Nat) : List Nat :=
  (blocks16 (wordsBE (padBytes beBytes msg))).foldl shaCompress shaH0

/-- `hashlib.sha256(s.encode('utf-8')).hexdigest()`. -/
def sha256hex (s : String) : String :=
  String.join ((shaWords (utf8Bytes s)).map hex8)

/-- The 64 MD5 sine-table constants. -/
def md5T : List Nat :=
  [0xd76aa478, 0xe8c7b756, 0x242070db, 0xc1bdceee, 0xf57c0faf, 0x4787c62a,
   0xa8304613, 0xfd469501, 0x698098d8, 0x8b44f7af, 0xffff5bb1, 0x895cd7be,
   0x6b901122, 0xfd987193, 0xa679438e, 0x49b40821, 0xf61e2562, 0xc040b340,
   0x265e5a51, 0xe9b6c7aa, 0xd62f105d, 0x02441453, 0xd8a1e681, 0xe7d3fbc8,
   0x21e1cde6, 0xc33707d6, 0xf4d50d87, 0x455a14ed, 0xa9e3e905, 0xfcefa3f8,
   0x676f02d9, 0x8d2a4c8a, 0xfffa3942, 0x8771f681, 0x6d9d6122, 0xfde5380c,
   0xa4beea44, 0x4bdecfa9, 0xf6bb4b60, 0xbebfbc70, 0x289b7ec6, 0xeaa127fa,
   0xd4ef3085, 0x04881d05, 0xd9d4d039, 0xe6db99e5, 0x1fa27cf8, 0xc4ac5665,
   0xf4292244, 0x432aff97, 0xab9423a7, 0xfc93a039, 0x655b59c3, 0x8f0ccc92,
   0xffeff47d, 0x85845dd1, 0x6fa87e4f, 0xfe2ce6e0, 0xa3014314, 0x4e0811a1,
   0xf7537e82, 0xbd3af235, 0x2ad7d2bb, 0xeb86d391]

/-- The MD5 per-round left-rotation amounts. -/
def md5S : List Nat :=
  [7, 12, 17, 22, 7, 12, 17, 22, 7, 12, 17, 22, 7, 12, 17, 22,
   5, 9, 14, 20, 5, 9, 14, 20, 5, 9, 14, 20, 5, 9, 14, 20,
   4, 11, 16, 23, 4, 11, 16, 23, 4, 11, 16, 23, 4, 11, 16, 23,
   6, 10, 15, 21, 6, 10, 15, 21, 6, 10, 15, 21, 6, 10, 15, 21]

/-- One MD5 block compression. -/
def md5Compress (st : List Nat) (block : List Nat) : List Nat :=
  let final := (List.range 64).foldl
    (fun st i =>
      match st with
      | [a, b, c, d] =>
        let fg : Nat × Nat :=
          if i < 16 then
            (Nat.lor (Nat.land b c) (Nat.land (not32 b) d), i)
          else if i < 32 then
            (Nat.lor (Nat.land d b) (Nat.land (not32 d) c), (5 * i + 1) % 16)
          else if i < 48 then
            (Nat.xor (Nat.xor b c) d, (3 * i + 5) % 16)
          else
            (Nat.xor c (Nat.lor b (not32 d)), 7 * i % 16)
        let sum := add32 (add32 a fg.1) (add32 (md5T.getD i 0) (block.getD fg.2 0))
        [d, add32 b (rotl sum (md5S.getD i 0)), b, c]
      | st => st)
    st
  List.zipWith add32 st final

/-- The MD5 state words for a byte message. -/
def md5Words (msg : List Nat) : List Nat :=
  (blocks16 (wordsLE (padBytes (fun k n => leBytes k n) msg))).foldl md5Compress
    [0x67452301, 0xefcdab89, 0x98badcfe, 0x10325476]

/-- `hashlib.md5(s.encode('utf-8')).hexdigest()`. -/
def md5hex (s : String) : String :=
  String.join ((md5Words (utf8Bytes s)).map (fun w => String.join ((leBytes 4 w).map hex2)))

end Hash

/-- `AsyncMongoDBRepository._generate_content_hash`: `str(content)` then
SHA-256 hex digest.  The `str` coercion of a non-string is relevant only
for `None` (pages created without content), rendered `"None"`. -/
def generateContentHash (content : BVal) : String :=
  match content with
  | .vStr s => Hash.sha256hex s
  | .vNull => Hash.sha256hex "None"
  | .vInt n => Hash.sha256hex (toString n)
  | .vBool b => Hash.sha256hex (if b then "True" else "False")
  | _ => Hash.sha256hex ""

/-- `AsyncMongoDBRepository.update_one`'s preparation of the `update_data`
argument before it is applied as `{"$set": update_data}` (source lines
387–415): sanitize (the `validate=True` default), set `updated_at`, and
recompute `content_hash` when a top-level `content` key is present. -/
def prepareUpdateData (u : Doc) (now : Nat) : Doc :=
  let u1 := sanitizeDoc u
  let u2 := setVal u1 "updated_at" (.vTime now)
  match getVal u2 "content" with
  | some c => setVal u2 "content_hash" (.vStr (generateContentHash c))
  | none => u2

/-- `AsyncMongoDBRepository.insert_one`'s preparation of the document before
insertion (source lines 320–349): sanitize, set `created_at` and
`updated_at`, and add `content_hash` when a `content` key is present. -/
def prepareInsertDoc (d : Doc) (now : Nat) : Doc :=
  let d1 := sanitizeDoc d
  let d2 := setVal (setVal d1 "created_at" (.vTime now)) "updated_at" (.vTime now)
  match getVal d2 "content" with
  | some c => setVal d2 "content_hash" (.vStr (generateContentHash c))
  | none => d2

/-! ## Processing queue (`processing_queue_repository.py`)

A task document carries the fields the repository reads or writes, plus
the `dependencies` list that the `ProcessingTask` data model
(`models/processing_queue.py`) declares; the repository itself never
writes or queries that field. -/

structure TaskDoc where
  tid : Nat
  taskType : String
  priority : Int
  payload : BVal
  status : String
  createdAt : Nat
  scheduledAt : Nat
  startedAt : Option Nat := none
  completedAt : Option Nat := none
  failedAt : Option Nat := none
  workerId : Option String := none
  errorMessage : Option String := none
  retryCount : Nat := 0
  maxRetries : Nat := 3
  dependencies : List Nat := []
  lastUpdate : Option Nat := none
  updatedAt : Option Nat := none
deriving Repr

/-- The `processing_queue` collection. -/
abbrev Queue := List TaskDoc

/-- The filter of `dequeue_next_task` (lines 154–161): `status == "pending"`,
`scheduled_at <= now`, plus the optional `task_type` equality.  The
`dependencies` field is not part of the query. -/
def dequeueMatches (now : Nat) (taskType : Option String) (t : TaskDoc) : Bool :=
  t.status = "pending" && t.scheduledAt ≤ now &&
    (match taskType with
     | some ty => t.taskType = ty
     | none => true)

/-- The sort `[("priority", DESCENDING), ("created_at", ASCENDING)]`
(line 171): `a` strictly precedes `b`. -/
def dequeueBefore (a b : TaskDoc) : Bool :=
  b.priority < a.priority || (a.priority = b.priority && a.createdAt < b.createdAt)

/-- The matching document `find_one_and_update` operates on: the first
document, in collection order, that no other matching document strictly
precedes (collection order models MongoDB's unspecified order among
sort-ties). -/
def selectBest (cand : List TaskDoc) : Option TaskDoc :=
  cand.foldl
    (fun acc t =>
      match acc with
      | none => some t
      | some b => if dequeueBefore t b then some t else some b)
    none

/-- The `$set` of `dequeue_next_task` (lines 164–168): status processing,
`started_at` and `last_update` stamped. -/
def dequeueStamp (now : Nat) (t : TaskDoc) : TaskDoc :=
  { t with status := "processing", startedAt := some now, lastUpdate := some now }

/-- `dequeue_next_task(task_type)` (lines 141–189): one atomic
`find_one_and_update` returning the updated document
(`return_document=True`), or `None` when nothing matches. -/
def dequeueNextTask (now : Nat) (taskType : Option String) (q : Queue) :
    Option TaskDoc × Queue :=
  match selectBest (q.filter (dequeueMatches now taskType)) with
  | none => (none, q)
  | some t =>
      (some (dequeueStamp now t),
        q.map (fun u => if u.tid = t.tid then dequeueStamp now u else u))

/-- `_calculate_next_retry_delay(retry_count)` (lines 83–89):
`base_delay * 2 ** retry_count` seconds, capped at one hour;
`base_delay` defaults to 60. -/
def calculateNextRetryDelay (retryCount : Nat) : Nat :=
  min (60 * 2 ^ retryCount) 3600

/-- The `update_data` dict built by `fail_task` (lines 292–318): the fields
the repository intends to `$set`. -/
def failTaskUpdateData (retryCount maxRetries : Nat) (error : String)
    (retry : Bool) (now : Nat) : Doc :=
  let base : Doc :=
    [("error_message", .vStr error),
     ("last_update", .vTime now),
     ("retry_count", .vInt (retryCount + 1))]
  if retry && retryCount < maxRetries then
    base ++
      [("status", .vStr "pending"),
       ("scheduled_at", .vTime (now + calculateNextRetryDelay retryCount)),
       ("worker_id", .vNull),
       ("started_at", .vNull)]
  else
    base ++ [("status", .vStr "failed"), ("failed_at", .vTime now)]

/-- Interpretation of an effective `$set` field map on a task document, for
the keys the queue repository ever writes. -/
def applySetTask (t : TaskDoc) (u : Doc) : TaskDoc :=
  u.foldl
    (fun t kv =>
      match kv with
      | ("status", .vStr s) => { t with status := s }
      | ("error_message", .vStr e) => { t with errorMessage := some e }
      | ("error_message", .vNull) => { t with errorMessage := none }
      | ("last_update", .vTime n) => { t with lastUpdate := some n }
      | ("retry_count", .vInt n) => { t with retryCount := n.toNat }
      | ("scheduled_at", .vTime n) => { t with scheduledAt := n }
      | ("worker_id", .vNull) => { t with workerId := none }
      | ("worker_id", .vStr w) => { t with workerId := some w }
      | ("started_at", .vNull) => { t with startedAt := none }
      | ("started_at", .vTime n) => { t with startedAt := some n }
      | ("failed_at", .vTime n) => { t with failedAt := some n }
      | ("completed_at", .vTime n) => { t with completedAt := some n }
      | ("updated_at", .vTime n) => { t with updatedAt := some n }
      | _ => t)
    t

/-- `fail_task(task_id, error, retry)` (lines 268–329) as it actually
executes.  The function builds `update_data` per `failTaskUpdateData` and
calls `self.update_one(query, {"$set": update_data})`.  The base
`update_one` sanitizes its `update_data` argument, which strips the
operator key `"$set"` entirely, leaving only the `updated_at` stamp it
adds itself, and returns a `bool`; `fail_task` then evaluates
`result.modified_count` on that `bool`, raising `AttributeError`, which
the enclosing `except` swallows, returning `False`.  So the stored task
only gets `updated_at` refreshed and the call reports failure. -/
def failTask (now : Nat) (taskId : Nat) (error : String) (retry : Bool) (q : Queue) :
    Bool × Queue :=
  match q.find? (fun t => t.tid = taskId) with
  | none => (false, q)
  | some t =>
      let updateData := failTaskUpdateData t.retryCount t.maxRetries error retry now
      let effective := prepareUpdateData [("$set", .vObj updateData)] now
      (false, q.map (fun u => if u.tid = taskId then applySetTask u effective else u))

/-! ## Alerts (`alerts_repository.py`) -/

/-- Python `str(value)` as it appears inside the f-string rendering of an
alert context dict (dict members are rendered with `repr`; string escaping
inside `repr` is not modelled, which affects only which byte string is
hashed, never the determinism of the fingerprint). -/
def pyReprVal : BVal → String
  | .vStr s => "'" ++ s ++ "'"
  | .vInt n => toString n
  | .vBool b => if b then "True" else "False"
  | .vNull => "None"
  | .vTime n => toString n
  | .vId n => toString n
  | .vArr xs =>
      "[" ++ String.intercalate ", " (xs.attach.map (fun x => pyReprVal x.1)) ++ "]"
  | .vObj d =>
      "\x7b" ++
        String.intercalate ", "
          (d.attach.map (fun x => "'" ++ x.1.1 ++ "': " ++ pyReprVal x.1.2)) ++
        "\x7d"
termination_by v => sizeOf v
decreasing_by
  · have h1 := List.sizeOf_lt_of_mem x.2
    simp only [BVal.vArr.sizeOf_spec]
    omega
  · have h1 := List.sizeOf_lt_of_mem x.2
    have h2 : sizeOf x.1.2 < sizeOf x.1 := by
      obtain ⟨a, b⟩ := x.1
      simp only [Prod.mk.sizeOf_spec]
      omega
    simp only [BVal.vObj.sizeOf_spec]
    omega

/-- Python `str(context)` for a context dict. -/
def pyReprDoc (d : Doc) : String :=
  pyReprVal (.vObj d)

/-- `_calculate_alert_hash(alert_type, site_id, context)` (lines 109–115):
`md5(f"{alert_type}:{site_id}:{context}").hexdigest()`. -/
def calculateAlertHash (alertType : String) (siteId : Option Nat) (context : Doc) :
    String :=
  Hash.md5hex
    (alertType ++ ":" ++
      (match siteId with
       | some i => toString i
       | none => "None") ++ ":" ++ pyReprDoc context)

/-- A stored alert document (fields `create_alert` writes). -/
structure AlertDoc where
  aid : Nat
  alertType : String
  severity : String
  title : String
  message : String := ""
  siteId : Option Nat := none
  context : Doc := []
  status : String
  alertHash : String
  occurrenceCount : Nat
  notificationSent : Bool
  createdAt : Nat
  lastSeen : Nat
  updatedAt : Option Nat := none
deriving Repr

/-- A row of the `alert_suppressions` collection. -/
structure Suppression where
  alertType : String
  suppressedUntil : Nat
deriving Repr

/-- The alerts store: the `alerts` collection plus its suppression
side-collection. -/
structure AlertsState where
  alerts : List AlertDoc
  suppressions : List Suppression
deriving Repr

/-- The argument of `create_alert`. -/
structure AlertInput where
  alertType : String
  severity : String := "medium"
  title : String
  message : String := ""
  siteId : Option Nat := none
  context : Doc := []
deriving Repr

/-- `AlertsRepository.SEVERITY_LEVELS` (keys). -/
def severityLevels : List String := ["critical", "high", "medium", "low", "info"]

/-- `_is_alert_suppressed(alert_type)` (lines 501–511): a suppression row
for the type with `suppressed_until > now` exists. -/
def isAlertSuppressed (now : Nat) (sups : List Suppression) (ty : String) : Bool :=
  sups.any (fun s => s.alertType = ty && now < s.suppressedUntil)

/-- `create_alert(alert)` (lines 117–195) as it actually executes.
Validation failures raise; a suppressed type returns the sentinel `None`
without touching the store.  When an active alert with the same
fingerprint exists, the code issues
`update_one({"_id": ...}, {"$set": {"last_seen": now}, "$inc": {"occurrence_count": 1}})`:
the base `update_one` sanitizes away both operator keys, so the stored
alert only gets the `updated_at` stamp the base method adds — neither
`occurrence_count` nor `last_seen` changes — and the existing id is
returned.  Otherwise a fresh document is inserted with `status="active"`,
`occurrence_count=1`, `notification_sent=False` (its context passes
through the sanitizer). -/
def createAlert (now : Nat) (newId : Nat) (a : AlertInput) (s : AlertsState) :
    Except String (Option Nat × AlertsState) :=
  if a.alertType = "" then .error "Alert type is required"
  else if a.title = "" then .error "Alert title is required"
  else if ¬ severityLevels.contains a.severity then .error "Invalid severity level"
  else if isAlertSuppressed now s.suppressions a.alertType then .ok (none, s)
  else
    let h := calculateAlertHash a.alertType a.siteId a.context
    match s.alerts.find? (fun d => d.alertHash = h && d.status = "active") with
    | some existing =>
        .ok (some existing.aid,
          { s with
            alerts :=
              s.alerts.map
                (fun d => if d.aid = existing.aid then { d with updatedAt := some now } else d) })
    | none =>
        .ok (some newId,
          { s with
            alerts :=
              s.alerts ++
                [{ aid := newId
                   alertType := a.alertType
                   severity := a.severity
                   title := a.title
                   message := a.message
                   siteId := a.siteId
                   context := sanitizeDoc a.context
                   status := "active"
                   alertHash := h
                   occurrenceCount := 1
                   notificationSent := false
                   createdAt := now
                   lastSeen := now
                   updatedAt := some now }] })

/-! ## Crawl sessions (`crawl_sessions_repository.py`) -/

/-- The five progress counters of `CrawlStats` used by
`complete_crawl_session`. -/
structure SessionStats where
  pagesDiscovered : Nat
  pagesCrawled : Nat
  pagesFailed : Nat
  bytesDownloaded : Nat
  errorsCount : Nat
deriving Repr

/-- A stored crawl-session document (fields this flow touches). -/
structure SessionDoc where
  sid : Nat
  siteId : Nat
  status : String
  startedAt : Nat
  stats : Option Doc := none
  lastUpdate : Option Nat := none
  updatedAt : Option Nat := none
deriving Repr

/-- A stored site document (fields this flow touches). -/
structure SiteDoc where
  stid : Nat
  lastCrawlTime : Option Nat := none
  updatedAt : Option Nat := none
deriving Repr

/-- The `update_data` dict built by `complete_crawl_session`
(lines 204–218): final stats with `start_time`, `end_time` and
`duration_seconds = now - started_at`, plus `status="completed"`,
`completed_at` and `last_update`. -/
def completeSessionUpdateData (st : SessionStats) (startedAt now : Nat) : Doc :=
  [("status", .vStr "completed"),
   ("completed_at", .vTime now),
   ("stats", .vObj
      [("pages_discovered", .vInt st.pagesDiscovered),
       ("pages_crawled", .vInt st.pagesCrawled),
       ("pages_failed", .vInt st.pagesFailed),
       ("bytes_downloaded", .vInt st.bytesDownloaded),
       ("errors_count", .vInt st.errorsCount),
       ("start_time", .vTime startedAt),
       ("end_time", .vTime now),
       ("duration_seconds", .vInt (now - startedAt))]),
   ("last_update", .vTime now)]

/-- Interpretation of an effective `$set` field map on a session document,
for the keys this repository writes. -/
def applySetSession (t : SessionDoc) (u : Doc) : SessionDoc :=
  u.foldl
    (fun t kv =>
      match kv with
      | ("status", .vStr s) => { t with status := s }
      | ("stats", .vObj d) => { t with stats := some d }
      | ("last_update", .vTime n) => { t with lastUpdate := some n }
      | ("updated_at", .vTime n) => { t with updatedAt := some n }
      | _ => t)
    t

/-- `complete_crawl_session(session_id, final_stats)` (lines 182–239) as it
actually executes.  A missing session raises `ResourceNotFoundError`,
which the enclosing `except` converts to `False`.  Otherwise the built
update is passed as `{"$set": update_data}` to the base `update_one`,
whose sanitizer strips the operator key, so only `updated_at` is written;
`update_one` returns a `bool`, and `success = result.modified_count > 0`
raises `AttributeError`, which the `except` swallows, returning `False`
before the parent site's `monitoring.last_crawl_time` write (line 230) is
ever reached.  The site write would in any case be a second, separate
`update_one` call after the session update, not one atomic scope. -/
def completeCrawlSession (now : Nat) (sessionId : Nat) (finalStats : SessionStats)
    (sessions : List SessionDoc) (sites : List SiteDoc) :
    Bool × List SessionDoc × List SiteDoc :=
  match sessions.find? (fun t => t.sid = sessionId) with
  | none => (false, sessions, sites)
  | some sess =>
      let updateData := completeSessionUpdateData finalStats sess.startedAt now
      let effective := prepareUpdateData [("$set", .vObj updateData)] now
      (false,
        sessions.map (fun u => if u.sid = sessionId then applySetSession u effective else u),
        sites)

/-! ## Pages and URL normalization (`pages_repository.py`) -/

/-- Split a character list at the first occurrence of `c`: the part before,
and the part after when `c` occurs. -/
def splitAtChar (c : Char) : List Char → List Char × Option (List Char)
  | [] => ([], none)
  | x :: xs =>
      if x = c then ([], some xs)
      else
        let r := splitAtChar c xs
        (x :: r.1, r.2)

/-- Take characters until one of `stops` is hit; also return the rest
(starting with the stop character). -/
def spanUntil (stops : List Char) : List Char → List Char × List Char
  | [] => ([], [])
  | x :: xs =>
      if stops.contains x then ([], x :: xs)
      else
        let r := spanUntil stops xs
        (x :: r.1, r.2)

/-- The components `urllib.parse.urlparse` exposes (of those the
normalizer reads). -/
structure UrlParts where
  scheme : String
  netloc : String
  path : String
  query : String
  fragment : String
deriving Repr, DecidableEq

/-- ASCII lowercasing of one character, as Python's `str.lower` acts on
the ASCII schemes and hosts these URLs carry. -/
def lowerChar (c : Char) : Char :=
  if 'A' ≤ c ∧ c ≤ 'Z' then Char.ofNat (c.toNat + 32) else c

/-- ASCII lowercasing of a string (`str.lower` on ASCII input). -/
def lowerStr (s : String) : String :=
  String.mk (s.data.map lowerChar)

/-- Model of `urllib.parse.urlparse` on the absolute URLs the crawler
handles, `scheme://netloc[/path][?query][#fragment]`: the fragment is
split off at the first `#`; the scheme is the part before the first `:`
and is lowercased by `urlparse`; the netloc follows `//` and runs to the
next `/` or `?`; the query starts at the first `?`.  `urlparse` does NOT
lowercase the netloc.  A string without `://` is parsed as a bare path
(scheme-less), which the crawler never produces. -/
def pyUrlparse (url : String) : UrlParts :=
  let withoutFrag := splitAtChar '#' url.data
  let fragment := String.mk (withoutFrag.2.getD [])
  let colonSplit := splitAtChar ':' withoutFrag.1
  match colonSplit.2 with
  | some ('/' :: '/' :: rest) =>
      let netlocSplit := spanUntil ['/', '?'] rest
      let querySplit := splitAtChar '?' netlocSplit.2
      { scheme := lowerStr (String.mk colonSplit.1)
        netloc := String.mk netlocSplit.1
        path := String.mk querySplit.1
        query := String.mk (querySplit.2.getD [])
        fragment := fragment }
  | _ =>
      let querySplit := splitAtChar '?' withoutFrag.1
      { scheme := ""
        netloc := ""
        path := String.mk querySplit.1
        query := String.mk (querySplit.2.getD [])
        fragment := fragment }

/-- Python `s.rstrip('/')`. -/
def rstripSlashes (s : String) : String :=
  String.mk ((s.data.reverse.dropWhile (fun c => c = '/')).reverse)

/-- `PagesRepository._normalize_url` (lines 91–99): rebuild
`f"{scheme}://{netloc}{path}"`, `rstrip('/')`, append `?query` when the
query is non-empty, and `rstrip('/')` again. -/
def normalizeUrl (url : String) : String :=
  let p := pyUrlparse url
  let n1 := p.scheme ++ "://" ++ p.netloc ++ p.path
  let n2 := rstripSlashes n1
  let n3 := if p.query ≠ "" then n2 ++ "?" ++ p.query else n2
  rstripSlashes n3

/-- The C6 claim's normalization, written from the spec's words (for the
refinement comparison only): lowercase scheme and host, drop the fragment,
strip the trailing slash from the path but keep a root path of `/`, and
preserve the query intact. -/
def specNormalizeUrl (url : String) : String :=
  let p := pyUrlparse url
  let strippedPath :=
    if rstripSlashes p.path = "" ∧ p.path ≠ "" then "/" else rstripSlashes p.path
  lowerStr p.scheme ++ "://" ++ lowerStr p.netloc ++ strippedPath ++
    (if p.query ≠ "" then "?" ++ p.query else "")

/-- The repository-level error taxonomy (`database/exceptions.py`). -/
inductive CrawlError where
  | validationError : String → CrawlError
  | duplicateResource : String → CrawlError
  | resourceNotFound : String → CrawlError
deriving Repr, DecidableEq

/-- A stored page document (fields these flows touch). -/
structure PageDoc where
  pid : Nat
  siteId : Nat
  url : String
  title : Option String := none
  content : Option String := none
  contentHash : Option String := none
  processingStatus : String := "pending"
  contentLength : Nat := 0
  createdAt : Option Nat := none
  updatedAt : Option Nat := none
  lastModified : Option Nat := none
deriving Repr, DecidableEq

/-- The `PageCreate` data-transfer object. -/
structure PageCreate where
  siteId : Nat
  url : String
  title : Option String := none
  content : Option String := none
deriving Repr, DecidableEq

/-- `create_page(page_data)` (lines 101–165): verify the site exists (the
`sites_repository.get_crawl_configuration` lookup is modelled by the
`siteExists` flag), normalize the URL, reject a duplicate
`(site_id, url)` with `DuplicateResourceError` before anything is
written, else insert with `processing_status="pending"`.  The insert goes
through `insert_one`, which recomputes `content_hash` from the document's
`content` key — hashing `str(None)`, i.e. the string `"None"`, when the
page has no content. -/
def createPage (now newId : Nat) (siteExists : Bool) (pc : PageCreate)
    (pages : List PageDoc) : Except CrawlError (Nat × List PageDoc) :=
  if ¬ siteExists then .error (.resourceNotFound "Site not found")
  else
    let nurl := normalizeUrl pc.url
    match pages.find? (fun p => p.siteId = pc.siteId && p.url = nurl) with
    | some _ =>
        .error (.duplicateResource ("Page with URL " ++ nurl ++ " already exists for site"))
    | none =>
        let contentVal : BVal :=
          match pc.content with
          | some s => .vStr s
          | none => .vNull
        .ok (newId,
          pages ++
            [{ pid := newId
               siteId := pc.siteId
               url := nurl
               title := pc.title
               content := pc.content
               contentHash := some (generateContentHash contentVal)
               processingStatus := "pending"
               contentLength := (pc.content.getD "").length
               createdAt := some now
               updatedAt := some now
               lastModified := some now }])

/-- The `update_data` dict built by `update_page_content` (lines 204–211). -/
def updatePageContentData (content contentHashArg : String) (now : Nat) : Doc :=
  [("content", .vStr content),
   ("content_hash", .vStr contentHashArg),
   ("content_length", .vInt content.length),
   ("updated_at", .vTime now),
   ("last_modified", .vTime now),
   ("processing_status", .vStr "pending")]

/-- Interpretation of an effective `$set` field map on a page document. -/
def applySetPage (t : PageDoc) (u : Doc) : PageDoc :=
  u.foldl
    (fun t kv =>
      match kv with
      | ("content", .vStr s) => { t with content := some s }
      | ("content_hash", .vStr s) => { t with contentHash := some s }
      | ("content_length", .vInt n) => { t with contentLength := n.toNat }
      | ("processing_status", .vStr s) => { t with processingStatus := s }
      | ("updated_at", .vTime n) => { t with updatedAt := some n }
      | ("last_modified", .vTime n) => { t with lastModified := some n }
      | _ => t)
    t

/-- `update_page_content(page_id, content, content_hash)` (lines 189–227)
as it actually executes: the update dict is passed as
`{"$set": update_data}` to the base `update_one`, whose sanitizer strips
the operator key, leaving only its own `updated_at` stamp; `update_one`
returns a `bool`, and `result.modified_count` on that `bool` raises
`AttributeError`, caught by the `except`, so the call returns `False`. -/
def updatePageContent (now : Nat) (pageId : Nat) (content contentHashArg : String)
    (pages : List PageDoc) : Bool × List PageDoc :=
  let updateData := updatePageContentData content contentHashArg now
  let effective := prepareUpdateData [("$set", .vObj updateData)] now
  (false, pages.map (fun p => if p.pid = pageId then applySetPage p effective else p))

/-! ## Content changes (`content_changes_repository.py`) -/

/-- The context flags and ratio `_determine_change_priority` reads.  The
`content_change_ratio` is a Python float; it is modelled as a rational,
on which the comparisons against `0.5` and `0.1` agree with IEEE floats
for all the inputs at issue. -/
structure ChangeContext where
  authorKnown : Bool := false
  philosophicalContent : Bool := false
  contentChangeRatio : ℚ := 0
deriving Repr, DecidableEq

/-- `_determine_change_priority(change_type, context)` (lines 85–106). -/
def determineChangePriority (changeType : String) (ctx : ChangeContext) : String :=
  if changeType = "deleted" then "high"
  else if changeType = "new" then
    if ctx.authorKnown || ctx.philosophicalContent then "high" else "medium"
  else if changeType = "modified" then
    if ctx.contentChangeRatio > 1 / 2 then "high"
    else if ctx.contentChangeRatio > 1 / 10 then "medium"
    else "low"
  else "medium"

/-- The in-memory `ContentChange` object at the time
`record_content_change` runs. -/
structure ContentChangeInput where
  pageId : Option Nat := none
  changeType : String
  siteId : Option Nat := none
  url : Option String := none
  title : Option String := none
  previousHash : Option String := none
  newHash : Option String := none
  priority : Option String := some "medium"
  context : ChangeContext := {}
deriving Repr, DecidableEq

/-- `ContentChange.__init__` (lines 22–38): `priority` defaults to
`kwargs.get('priority', 'medium')`, so an object constructed without an
explicit priority carries `'medium'`, not `None`. -/
def mkContentChange (pageId siteId : Option Nat) (changeType : String)
    (ctx : ChangeContext) : ContentChangeInput :=
  { pageId := pageId, siteId := siteId, changeType := changeType,
    priority := some "medium", context := ctx }

/-- Python falsiness of the `priority` attribute (`if not change.priority`):
`None` and the empty string are falsy. -/
def pyFalsyStr : Option String → Bool
  | none => true
  | some "" => true
  | some _ => false

/-- `ContentChangesRepository.CHANGE_TYPES`. -/
def changeTypes : List String := ["new", "modified", "deleted"]

/-- A stored content-change document. -/
structure ChangeDoc where
  cid : Nat
  pageId : Nat
  changeType : String
  siteId : Nat
  url : Option String
  title : Option String
  previousHash : Option String
  newHash : Option String
  priority : String
  notificationSent : Bool
  detectedAt : Nat
  context : ChangeContext
deriving Repr, DecidableEq

/-- `record_content_change(change)` (lines 108–186): validate `page_id`,
`change_type` and `site_id`; for `new`/`modified` require the page to
resolve (the `pages_repository.find_one` lookup is modelled by
`pageLookup`, carrying the page's url and title for the auto-fill);
derive the priority via `_determine_change_priority` only when the
current `priority` attribute is falsy; insert with
`notification_sent=False` and `detected_at=now`. -/
def recordContentChange (now newId : Nat)
    (pageLookup : Option (Option String × Option String))
    (c : ContentChangeInput) (changes : List ChangeDoc) :
    Except CrawlError (Nat × List ChangeDoc) :=
  match c.pageId with
  | none => .error (.validationError "Page ID is required")
  | some pageId =>
      if ¬ changeTypes.contains c.changeType then
        .error (.validationError "Invalid change type")
      else
        match c.siteId with
        | none => .error (.validationError "Site ID is required")
        | some siteId =>
            let needPage := c.changeType = "new" ∨ c.changeType = "modified"
            if needPage ∧ pageLookup.isNone then
              .error (.validationError "Page not found")
            else
              let url :=
                if needPage ∧ c.url.isNone then (pageLookup.getD (none, none)).1
                else c.url
              let title :=
                if needPage ∧ c.title.isNone then (pageLookup.getD (none, none)).2
                else c.title
              let priority :=
                if pyFalsyStr c.priority then determineChangePriority c.changeType c.context
                else c.priority.getD "medium"
              .ok (newId,
                changes ++
                  [{ cid := newId
                     pageId := pageId
                     changeType := c.changeType
                     siteId := siteId
                     url := url
                     title := title
                     previousHash := c.previousHash
                     newHash := c.newHash
                     priority := priority
                     notificationSent := false
                     detectedAt := now
                     context := c.context }])

/-! ## Retention engine (`retention_policy_manager.py`) -/

/-- A document as the retention engine sees it: its id and the value of
the policy's `ttl_field`. -/
structure RDoc where
  rid : Nat
  ttl : Nat
deriving Repr, DecidableEq

/-- The archival query `{ttl_field: {"$lt": cutoff_date}}` applied to a
collection. -/
def oldOnes (cutoff : Nat) (coll : List RDoc) : List RDoc :=
  coll.filter (fun d => d.ttl < cutoff)

/-- `_generate_archive_key(collection_name, first_doc, last_doc)`
(lines 243–251). -/
def generateArchiveKey (name ts : String) (firstDoc lastDoc : RDoc) : String :=
  "archives/" ++ name ++ "/" ++ ts ++ "_" ++ toString firstDoc.rid ++ "_" ++
    toString lastDoc.rid ++ ".json.gz"

/-- One uploaded archive object. -/
structure ArchiveUpload where
  key : String
  docs : List RDoc
deriving Repr, DecidableEq

/-- The batch loop of `archive_old_documents` (lines 190–215) together
with `_get_batches` (lines 231–241): each iteration re-runs the query on
the current collection and pages with `skip`/`limit(1000)`; a non-empty
batch is uploaded (`uploadOk` models S3 success per iteration index) and,
only on success, deleted by id, adding `result.deleted_count` to the
archived count; an upload failure breaks the loop, deleting nothing
further.  `skip` grows by the batch size each iteration even though
successful iterations shrink the collection.  The `fuel` argument only
bounds the recursion; `archiveOldDocuments` passes more than the loop can
consume, since a non-empty batch needs `skip < |old documents|` and
`skip` grows by 1000 each iteration.  Returns (uploads, archived count,
final collection). -/
def archiveLoop (uploadOk : Nat → Bool) (cutoff : Nat) (name ts : String) :
    Nat → Nat → Nat → List RDoc → List ArchiveUpload × Nat × List RDoc
  | 0, _, _, coll => ([], 0, coll)
  | fuel + 1, iter, skip, coll =>
      match ((oldOnes cutoff coll).drop skip).take 1000 with
      | [] => ([], 0, coll)
      | hd :: tl =>
          let key := generateArchiveKey name ts hd (tl.getLastD hd)
          if uploadOk iter then
            let ids := (hd :: tl).map (fun d => d.rid)
            let coll' := coll.filter (fun d => ¬ ids.contains d.rid)
            let r := archiveLoop uploadOk cutoff name ts fuel (iter + 1) (skip + 1000) coll'
            ({ key := key, docs := hd :: tl } :: r.1,
              coll.length - coll'.length + r.2.1, r.2.2)
          else ([], 0, coll)

/-- `archive_old_documents(collection_name)` (lines 156–229) for an
archive-enabled policy with S3 configured and `dry_run=False`. -/
def archiveOldDocuments (uploadOk : Nat → Bool) (cutoff : Nat) (name ts : String)
    (coll : List RDoc) : List ArchiveUpload × Nat × List RDoc :=
  archiveLoop uploadOk cutoff name ts (coll.length + 1) 0 0 coll

/-! ## Circuit breaker and retry (`async_mongo_repository.py` lines 53–110
and 252–318) -/

/-- `CircuitBreakerState`. -/
inductive BreakerState where
  | closed
  | opened
  | halfOpen
deriving Repr, DecidableEq

/-- The `CircuitBreaker` object with its default
`CircuitBreakerConfig(failure_threshold=5, recovery_timeout=60,
success_threshold=3)`. -/
structure Breaker where
  state : BreakerState
  failureCount : Nat
  successCount : Nat
  lastFailureTime : Option Nat
deriving Repr, DecidableEq

/-- The breaker as constructed. -/
def breakerInit : Breaker :=
  { state := .closed, failureCount := 0, successCount := 0, lastFailureTime := none }

/-- `CircuitBreaker.can_execute` (lines 76–88): `True` in closed and
half-open; in open, transitions to half-open once the recovery timeout
(60 s) has elapsed since the last failure, else refuses. -/
def canExecute (now : Nat) (b : Breaker) : Breaker × Bool :=
  match b.state with
  | .closed => (b, true)
  | .opened =>
      match b.lastFailureTime with
      | some t =>
          if 60 ≤ now - t then
            ({ b with state := .halfOpen, successCount := 0 }, true)
          else (b, false)
      | none => (b, false)
  | .halfOpen => (b, true)

/-- `CircuitBreaker.record_success` (lines 90–98). -/
def recordSuccess (b : Breaker) : Breaker :=
  match b.state with
  | .halfOpen =>
      if 3 ≤ b.successCount + 1 then
        { b with state := .closed, failureCount := 0, successCount := b.successCount + 1 }
      else { b with successCount := b.successCount + 1 }
  | .closed => { b with failureCount := 0 }
  | .opened => b

/-- `CircuitBreaker.record_failure` (lines 100–110). -/
def recordFailure (now : Nat) (b : Breaker) : Breaker :=
  let b := { b with failureCount := b.failureCount + 1, lastFailureTime := some now }
  match b.state with
  | .halfOpen => { b with state := .opened }
  | .closed => if 5 ≤ b.failureCount then { b with state := .opened } else b
  | .opened => b

/-- What one attempt of the wrapped operation does: succeed, raise a
transient transport error (`NetworkTimeout`/`ServerSelectionTimeoutError`/
`AutoReconnect`), or raise any other exception. -/
inductive AttemptOutcome where
  | success
  | transientError
  | fatalError
deriving Repr, DecidableEq

/-- What `_with_retry` returns or raises. -/
inductive OpResult where
  | ok
  | repositoryError
  | connectionError
deriving Repr, DecidableEq

/-- The attempt loop of `_with_retry` (lines 281–318), for the attempt
outcomes given by `outcomes` (indexed by attempt number): a success
records a success and returns; a non-transient error records a failure
and raises `RepositoryError`; a transient error records a failure and
retries until `max_retries` is exhausted, after which line 315 records
one further failure and raises `ConnectionError`.  The third component
counts how many times the wrapped operation actually ran. -/
def retryGo (now : Nat) (outcomes : Nat → AttemptOutcome) :
    Nat → Nat → Breaker → OpResult × Breaker × Nat
  | attempt, remaining, b =>
      match outcomes attempt with
      | .success => (.ok, recordSuccess b, attempt + 1)
      | .fatalError => (.repositoryError, recordFailure now b, attempt + 1)
      | .transientError =>
          let b1 := recordFailure now b
          match remaining with
          | 0 => (.connectionError, recordFailure now b1, attempt + 1)
          | r + 1 => retryGo now outcomes (attempt + 1) r b1

/-- `_with_retry(operation)` (lines 252–318) with the default
`max_retries=3`: refuse fast with `ConnectionError` (zero operation
executions) when the breaker refuses, else run the attempt loop. -/
def withRetry (now : Nat) (outcomes : Nat → AttemptOutcome) (b : Breaker) :
    OpResult × Breaker × Nat :=
  let gate := canExecute now b
  if gate.2 then retryGo now outcomes 0 3 gate.1
  else (.connectionError, gate.1, 0)

/-! ## Claim-side predicates

The following definitions transcribe claim language (not source code) and
exist only to compare the claims against the embedded code. -/

/-- C1's eligibility, from the claim's words: pending, due, matching the
requested type, and every listed dependency resolving to a task with
`status = "completed"`. -/
def claimEligible (now : Nat) (taskType : Option String) (q : Queue) (t : TaskDoc) :
    Bool :=
  dequeueMatches now taskType t &&
    t.dependencies.all
      (fun d =>
        match q.find? (fun u => u.tid = d) with
        | some u => u.status = "completed"
        | none => false)

/-- C3's invariant: at most one alert with `status = "active"` per
fingerprint. -/
def atMostOneActivePerFingerprint (alerts : List AlertDoc) : Prop :=
  ∀ h : String,
    (alerts.filter (fun d => d.alertHash = h && d.status = "active")).length ≤ 1

/-- C7's invariant: no two pages share a `(site_id, url)` pair (the `url`
field holds the normalized URL). -/
def pagesUrlUnique (pages : List PageDoc) : Prop :=
  List.Pairwise (fun a b => ¬ (a.siteId = b.siteId ∧ a.url = b.url)) pages

/-- A collection of `n` retention documents with consecutive ids starting
at `s`, all bearing `ttl_field` value 0 (i.e. older than any positive
cutoff). -/
def mkDocs (s n : Nat) : List RDoc :=
  (List.range' s n).map (fun i => { rid := i, ttl := 0 })

/-- A sequence of `_with_retry` calls at one instant, returning the final
breaker. -/
def runCalls (now : Nat) (ops : List (Nat → AttemptOutcome)) (b : Breaker) : Breaker :=
  ops.foldl (fun b op => (withRetry now op b).2.1) b

/-- A concrete processing task used as the failing input of C2: leased
(`status="processing"`), first failure pending (`retry_count=0`,
`max_retries=3`). -/
def sampleTask : TaskDoc :=
  { tid := 1, taskType := "text_extraction", priority := 3, payload := .vNull,
    status := "processing", createdAt := 0, scheduledAt := 0,
    startedAt := some 10, workerId := some "w1" }

/-- C1 counterexample data: a pending, due task whose `dependencies` list
names task 2. -/
def cexTaskA : TaskDoc :=
  { tid := 1, taskType := "ocr", priority := 3, payload := .vNull,
    status := "pending", createdAt := 0, scheduledAt := 0, dependencies := [2] }

/-- C1 counterexample data: task 2, still being processed (so task 1's
dependency is not completed, and task 2 itself is not pending). -/
def cexTaskB : TaskDoc :=
  { tid := 2, taskType := "fetch", priority := 5, payload := .vNull,
    status := "processing", createdAt := 0, scheduledAt := 0 }

/-- The alert of spec scenario 3: `(type="crawl_failure", site_id=X,
context={"error_code": "TIMEOUT"})`. -/
def sampleAlert : AlertInput :=
  { alertType := "crawl_failure", severity := "high", title := "Crawl failure",
    siteId := some 12, context := [("error_code", .vStr "TIMEOUT")] }

/-- The document `create_alert` inserts for `sampleAlert` at time `t` with
id 1. -/
def sampleAlertDoc (t : Nat) : AlertDoc :=
  { aid := 1, alertType := "crawl_failure", severity := "high",
    title := "Crawl failure", message := "", siteId := some 12,
    context := [("error_code", .vStr "TIMEOUT")], status := "active",
    alertHash := calculateAlertHash "crawl_failure" (some 12) [("error_code", .vStr "TIMEOUT")],
    occurrenceCount := 1, notificationSent := false, createdAt := t, lastSeen := t,
    updatedAt := some t }

/-- A running session for the C4 counterexample. -/
def sampleSession : SessionDoc :=
  { sid := 1, siteId := 5, status := "running", startedAt := 50 }

/-- The parent site of `sampleSession`, with no recorded crawl time. -/
def sampleSite : SiteDoc :=
  { stid := 5 }

/-- A processed page with recorded hash, for the C9 counterexample. -/
def samplePage : PageDoc :=
  { pid := 1, siteId := 5, url := "https://x/p", content := some "old",
    contentHash := some "oldhash", processingStatus := "processed" }

/-! ## Sanity anchors for the digest implementations -/

set_option maxRecDepth 100000 in
/-- FIPS 180-2 test vector: the SHA-256 state words of `"abc"`. -/
theorem sha256_test_vector :
    Hash.shaWords (Hash.utf8Bytes "abc") =
      [0xba7816bf, 0x8f01cfea, 0x414140de, 0x5dae2223,
       0xb00361a3, 0x96177a9c, 0xb410ff61, 0xf20015ad] := by
  decide

set_option maxRecDepth 100000 in
/-- RFC 1321 test vector: the MD5 state words of `"abc"`. -/
theorem md5_test_vector :
    Hash.md5Words (Hash.utf8Bytes "abc") =
      [0x98500190, 0xb04fd23c, 0x7d3f96d6, 0x727fe128] := by
  decide

/-! ## Document and sanitizer lemmas -/

theorem sanitizeDoc_nil : sanitizeDoc [] = [] := by
  simp [sanitizeDoc, sanitizeVal]

theorem sanitizeDoc_cons (k : String) (v : BVal) (rest : Doc) :
    sanitizeDoc ((k, v) :: rest) =
      if startsWithDollar k then sanitizeDoc rest
      else (k, sanitizeVal v) :: sanitizeDoc rest := by
  simp only [sanitizeDoc, sanitizeVal, List.attach_cons, List.foldr_cons, List.foldr_map]

theorem getVal_setVal_self (d : Doc) (k : String) (v : BVal) :
    getVal (setVal d k v) k = some v := by
  induction d with
  | nil => simp [setVal, getVal]
  | cons kv rest ih =>
      obtain ⟨k', v'⟩ := kv
      by_cases h : k' = k
      · simp [setVal, getVal, h]
      · simp only [setVal, if_neg h]
        simp [getVal, List.find?, h] at ih ⊢
        exact ih

theorem getVal_setVal_ne (d : Doc) (k k' : String) (v : BVal) (h : k' ≠ k) :
    getVal (setVal d k v) k' = getVal d k' := by
  induction d with
  | nil => simp [setVal, getVal, List.find?, Ne.symm h]
  | cons kv rest ih =>
      obtain ⟨k₀, v₀⟩ := kv
      by_cases h0 : k₀ = k
      · subst h0
        simp [setVal, getVal, List.find?, Ne.symm h]
      · by_cases h1 : k₀ = k'
        · subst h1
          simp [setVal, getVal, List.find?, h0]
        · simp only [setVal, if_neg h0]
          simp [getVal, List.find?, h1] at ih ⊢
          exact ih

/-- The base `update_one` applied to an update document whose only key is a
Mongo operator (as every repository call site does with `{"$set": ...}`):
the sanitizer strips the operator key, so the effective field map is just
the method's own `updated_at` stamp. -/
theorem prepareUpdateData_operator_doc (k : String) (v : BVal) (now : Nat)
    (h : startsWithDollar k = true) :
    prepareUpdateData [(k, v)] now = [("updated_at", .vTime now)] := by
  have hs : sanitizeDoc [(k, v)] = [] := by
    rw [sanitizeDoc_cons, if_pos h, sanitizeDoc_nil]
  simp [prepareUpdateData, hs, setVal, getVal, List.find?]

/-! ## C2 — fail_task retry transition -/

/-- The update document `fail_task` builds when retrying carries exactly
the transition the spec claims: status pending,
`scheduled_at = now + min(60·2^rc, 3600)`, incremented retry count,
cleared worker/started, recorded error. -/
theorem failTaskUpdateData_retry (rc mr : Nat) (e : String) (now : Nat) (h : rc < mr) :
    failTaskUpdateData rc mr e true now =
      [("error_message", .vStr e),
       ("last_update", .vTime now),
       ("retry_count", .vInt (rc + 1)),
       ("status", .vStr "pending"),
       ("scheduled_at", .vTime (now + min (60 * 2 ^ rc) 3600)),
       ("worker_id", .vNull),
       ("started_at", .vNull)] := by
  simp [failTaskUpdateData, calculateNextRetryDelay, h]

/-- Retries exhausted (or retry refused): the built update marks the task
failed with `failed_at = now` (the retry counter is still incremented). -/
theorem failTaskUpdateData_exhausted (rc mr : Nat) (e : String) (now : Nat)
    (h : ¬ (rc < mr)) :
    failTaskUpdateData rc mr e true now =
      [("error_message", .vStr e),
       ("last_update", .vTime now),
       ("retry_count", .vInt (rc + 1)),
       ("status", .vStr "failed"),
       ("failed_at", .vTime now)] := by
  simp [failTaskUpdateData, h]

/-- The claimed backoff progression for `max_retries = 3`: 60 s, 120 s,
240 s, and the 3600 s cap. -/
theorem backoff_progression :
    calculateNextRetryDelay 0 = 60 ∧ calculateNextRetryDelay 1 = 120 ∧
      calculateNextRetryDelay 2 = 240 ∧ calculateNextRetryDelay 10 = 3600 := by
  decide

/-- `fail_task` with the task found: whatever update it builds, the
operator-document handoff reduces the stored effect to the `updated_at`
stamp, and the call reports `False`. -/
theorem failTask_found (now taskId : Nat) (e : String) (retry : Bool)
    (q : Queue) (t : TaskDoc)
    (h : q.find? (fun t => t.tid = taskId) = some t) :
    failTask now taskId e retry q =
      (false,
        q.map (fun u => if u.tid = taskId then { u with updatedAt := some now } else u)) := by
  unfold failTask
  rw [h]
  have heff :
      prepareUpdateData
          [("$set", BVal.vObj (failTaskUpdateData t.retryCount t.maxRetries e retry now))]
          now =
        [("updated_at", .vTime now)] :=
    prepareUpdateData_operator_doc _ _ _ (by decide)
  simp only [heff]
  rfl

/-- C2: `fail_task` on a processing task with `retry_count=0 < max_retries=3`
and `retry=True` — the claim says the task is set back to pending with
`scheduled_at = now + 60`, `retry_count = 1`, worker/started cleared.  The
code builds exactly that update (`failTaskUpdateData_retry`) but hands it
to `update_one` as an operator document, whose sanitizer strips it; only
`updated_at` is written, the task stays `processing` with
`scheduled_at = 0` and `retry_count = 0`, and the call returns `False`
(an `AttributeError` on the `bool` result is swallowed).  The
repository's own test (`test_fail_task_with_retry`) pins the claimed
behaviour, so this is a code bug, not a spec error. -/
theorem c2_fail_task_code_bug :
    failTask 100 1 "boom" true [sampleTask] =
      (false, [{ sampleTask with updatedAt := some 100 }]) ∧
      sampleTask.retryCount = 0 ∧ sampleTask.maxRetries = 3 ∧
      sampleTask.status = "processing" := by
  refine ⟨?_, rfl, rfl, rfl⟩
  rw [failTask_found 100 1 "boom" true [sampleTask] sampleTask rfl]
  rfl

/-! ## C8 — content-change priority derivation -/

/-- C8 counterexample: a `ContentChange` constructed by the model's own
`__init__` without an explicit priority carries the default `'medium'`,
which is truthy, so `record_content_change` never calls
`_determine_change_priority`: a `modified` change with
`content_change_ratio = 0.6` is stored with priority `"medium"`, while
the claim requires `"high"`. -/
theorem c8_counterexample :
    recordContentChange 100 7 (some (some "https://x/p", some "T"))
        (mkContentChange (some 1) (some 2) "modified" { contentChangeRatio := 3 / 5 })
        [] =
      .ok (7,
        [{ cid := 7, pageId := 1, changeType := "modified", siteId := 2,
           url := some "https://x/p", title := some "T", previousHash := none,
           newHash := none, priority := "medium", notificationSent := false,
           detectedAt := 100, context := { contentChangeRatio := 3 / 5 } }]) ∧
      ("medium" : String) ≠ "high" := by
  refine ⟨?_, by decide⟩
  simp [recordContentChange, mkContentChange, changeTypes, pyFalsyStr]

theorem determineChangePriority_modified (ctx : ChangeContext) :
    determineChangePriority "modified" ctx =
      if ctx.contentChangeRatio > 1 / 2 then "high"
      else if ctx.contentChangeRatio > 1 / 10 then "medium"
      else "low" := by
  have h1 : ¬ ("modified" : String) = "deleted" := by decide
  have h2 : ¬ ("modified" : String) = "new" := by decide
  simp [determineChangePriority, h1, h2]

/-- C8 (amended): the stored priority is derived from `change_type` and
context only when the change object's `priority` attribute is falsy
(`None` or empty) at recording time — the model's default `'medium'`
suppresses the derivation — and, when it is derived, it follows exactly
the claimed table: modified with ratio 0.6 → high, 0.2 → medium,
0.05 → low; deleted → high; new → high iff `author_known` or
`philosophical_content`, else medium. -/
theorem c8_amended_priority_derivation
    (now newId : Nat) (pageUrl pageTitle : Option String)
    (c : ContentChangeInput) (changes : List ChangeDoc)
    (pid sid : Nat)
    (hpid : c.pageId = some pid) (hsid : c.siteId = some sid)
    (hty : c.changeType ∈ changeTypes)
    (hfalsy : pyFalsyStr c.priority = true) :
    (recordContentChange now newId (some (pageUrl, pageTitle)) c changes =
      .ok (newId,
        changes ++
          [{ cid := newId
             pageId := pid
             changeType := c.changeType
             siteId := sid
             url :=
               if (c.changeType = "new" ∨ c.changeType = "modified") ∧ c.url.isNone then
                 pageUrl
               else c.url
             title :=
               if (c.changeType = "new" ∨ c.changeType = "modified") ∧ c.title.isNone then
                 pageTitle
               else c.title
             previousHash := c.previousHash
             newHash := c.newHash
             priority := determineChangePriority c.changeType c.context
             notificationSent := false
             detectedAt := now
             context := c.context }])) ∧
    determineChangePriority "modified" { contentChangeRatio := 3 / 5 } = "high" ∧
    determineChangePriority "modified" { contentChangeRatio := 1 / 5 } = "medium" ∧
    determineChangePriority "modified" { contentChangeRatio := 1 / 20 } = "low" ∧
    determineChangePriority "deleted" {} = "high" ∧
    (∀ ctx : ChangeContext,
      determineChangePriority "new" ctx =
        if ctx.authorKnown || ctx.philosophicalContent then "high" else "medium") := by
  have hdel : determineChangePriority "deleted" {} = "high" := by
    simp [determineChangePriority]
  refine ⟨?_, by rw [determineChangePriority_modified]; norm_num,
    by rw [determineChangePriority_modified]; norm_num,
    by rw [determineChangePriority_modified]; norm_num, hdel, ?_⟩
  · simp [recordContentChange, hpid, hsid, hty, hfalsy]
  · intro ctx
    have h1 : ¬ ("new" : String) = "deleted" := by decide
    simp [determineChangePriority, h1]

/-- Witness for `c8_amended_priority_derivation`: a change whose priority
is explicitly `None` and whose ratio is 0.6. -/
theorem c8_amended_priority_derivation_witness :
    ({ pageId := some 1, siteId := some 2, changeType := "modified",
       priority := none,
       context := { contentChangeRatio := 3 / 5 } } : ContentChangeInput).pageId =
        some 1 ∧
      (recordContentChange 100 7 (some (some "https://x/p", some "T"))
          { pageId := some 1, siteId := some 2, changeType := "modified",
            priority := none, context := { contentChangeRatio := 3 / 5 } } [] =
        .ok (7,
          [{ cid := 7, pageId := 1, changeType := "modified", siteId := 2,
             url := some "https://x/p", title := some "T", previousHash := none,
             newHash := none,
             priority :=
               determineChangePriority "modified" { contentChangeRatio := 3 / 5 },
             notificationSent := false, detectedAt := 100,
             context := { contentChangeRatio := 3 / 5 } }])) := by
  refine ⟨rfl, ?_⟩
  have h :=
    c8_amended_priority_derivation 100 7 (some "https://x/p") (some "T")
      { pageId := some 1, siteId := some 2, changeType := "modified",
        priority := none, context := { contentChangeRatio := 3 / 5 } }
      [] 1 2 rfl rfl (by simp [changeTypes]) (by simp [pyFalsyStr])
  simpa using h.1

/-! ## C10 — circuit breaker failure accounting -/

theorem recordFailure_lastFailureTime (now : Nat) (b : Breaker) :
    (recordFailure now b).lastFailureTime = some now := by
  unfold recordFailure
  cases hb : b.state <;> simp [hb]
  split <;> rfl

theorem recordFailure_failureCount (now : Nat) (b : Breaker) :
    (recordFailure now b).failureCount = b.failureCount + 1 := by
  unfold recordFailure
  cases hb : b.state <;> simp [hb]
  split <;> rfl

theorem recordFailure_closed (now : Nat) (b : Breaker) (h : b.state = .closed) :
    (recordFailure now b).state = .opened ∨
      ((recordFailure now b).state = .closed ∧
        (recordFailure now b).failureCount < 5) := by
  unfold recordFailure
  simp only [h]
  by_cases h5 : 5 ≤ b.failureCount + 1 <;> simp [h5]
  omega

theorem recordFailure_opened (now : Nat) (b : Breaker) (h : b.state = .opened) :
    (recordFailure now b).state = .opened := by
  unfold recordFailure
  simp [h]

/-- Every attempt loop with no successful attempt records at least one
failure (non-transient errors included) and leaves the breaker either
open with the failure freshly stamped, or still closed below the opening
threshold. -/
theorem retryGo_noSuccess (now : Nat) (outcomes : Nat → AttemptOutcome)
    (hns : ∀ i, outcomes i ≠ .success) :
    ∀ (remaining attempt : Nat) (b : Breaker),
      (b.state = .closed ∨ (b.state = .opened ∧ b.lastFailureTime = some now)) →
      b.failureCount + 1 ≤ (retryGo now outcomes attempt remaining b).2.1.failureCount ∧
        (((retryGo now outcomes attempt remaining b).2.1.state = .opened ∧
            (retryGo now outcomes attempt remaining b).2.1.lastFailureTime = some now) ∨
          ((retryGo now outcomes attempt remaining b).2.1.state = .closed ∧
            (retryGo now outcomes attempt remaining b).2.1.failureCount < 5)) := by
  intro remaining
  induction remaining with
  | zero =>
      intro attempt b hb
      unfold retryGo
      cases ho : outcomes attempt with
      | success => exact absurd ho (hns attempt)
      | fatalError =>
          refine ⟨by rw [recordFailure_failureCount], ?_⟩
          rcases hb with h | ⟨h, _⟩
          · rcases recordFailure_closed now b h with h' | h'
            · exact .inl ⟨h', recordFailure_lastFailureTime now b⟩
            · exact .inr h'
          · exact .inl ⟨recordFailure_opened now b h, recordFailure_lastFailureTime now b⟩
      | transientError =>
          simp only
          constructor
          · rw [recordFailure_failureCount, recordFailure_failureCount]
            omega
          · rcases hb with h | ⟨h, _⟩
            · rcases recordFailure_closed now b h with h' | ⟨h', _⟩
              · exact .inl ⟨recordFailure_opened now _ h',
                  recordFailure_lastFailureTime now _⟩
              · rcases recordFailure_closed now _ h' with h'' | h''
                · exact .inl ⟨h'', recordFailure_lastFailureTime now _⟩
                · exact .inr h''
            · exact .inl ⟨recordFailure_opened now _ (recordFailure_opened now b h),
                recordFailure_lastFailureTime now _⟩
  | succ r ih =>
      intro attempt b hb
      unfold retryGo
      cases ho : outcomes attempt with
      | success => exact absurd ho (hns attempt)
      | fatalError =>
          refine ⟨by rw [recordFailure_failureCount], ?_⟩
          rcases hb with h | ⟨h, _⟩
          · rcases recordFailure_closed now b h with h' | h'
            · exact .inl ⟨h', recordFailure_lastFailureTime now b⟩
            · exact .inr h'
          · exact .inl ⟨recordFailure_opened now b h, recordFailure_lastFailureTime now b⟩
      | transientError =>
          simp only
          have hb1 :
              (recordFailure now b).state = .closed ∨
                ((recordFailure now b).state = .opened ∧
                  (recordFailure now b).lastFailureTime = some now) := by
            rcases hb with h | ⟨h, _⟩
            · rcases recordFailure_closed now b h with h' | ⟨h', _⟩
              · exact .inr ⟨h', recordFailure_lastFailureTime now b⟩
              · exact .inl h'
            · exact .inr ⟨recordFailure_opened now b h,
                recordFailure_lastFailureTime now b⟩
          have := ih (attempt + 1) (recordFailure now b) hb1
          refine ⟨?_, this.2⟩
          have hc := recordFailure_failureCount now b
          omega

/-- One `_with_retry` call from a closed breaker with no successful
attempt. -/
theorem withRetry_noSuccess_closed (now : Nat) (outcomes : Nat → AttemptOutcome)
    (hns : ∀ i, outcomes i ≠ .success) (b : Breaker) (h : b.state = .closed) :
    b.failureCount + 1 ≤ (withRetry now outcomes b).2.1.failureCount ∧
      (((withRetry now outcomes b).2.1.state = .opened ∧
          (withRetry now outcomes b).2.1.lastFailureTime = some now) ∨
        ((withRetry now outcomes b).2.1.state = .closed ∧
          (withRetry now outcomes b).2.1.failureCount < 5)) := by
  unfold withRetry canExecute
  simp only [h]
  exact retryGo_noSuccess now outcomes hns 3 0 b (.inl h)

/-- A call inside the recovery window of an open breaker is rejected fast,
without running the wrapped operation. -/
theorem withRetry_opened_window (now' t : Nat) (o : Nat → AttemptOutcome)
    (b : Breaker) (h : b.state = .opened) (hl : b.lastFailureTime = some t)
    (hw : now' - t < 60) :
    withRetry now' o b = (.connectionError, b, 0) := by
  unfold withRetry canExecute
  simp only [h, hl]
  have : ¬ 60 ≤ now' - t := by omega
  simp [this]

theorem runCalls_noSuccess_aux (now : Nat) (b0 : Breaker) :
    ∀ (ops : List (Nat → AttemptOutcome)) (b : Breaker) (k : Nat),
      (∀ op ∈ ops, ∀ i, op i ≠ .success) →
      ((b.state = .opened ∧ b.lastFailureTime = some now) ∨
        (b.state = .closed ∧ b0.failureCount + k ≤ b.failureCount ∧
          (1 ≤ k → b.failureCount < 5))) →
      ((runCalls now ops b).state = .opened ∧
          (runCalls now ops b).lastFailureTime = some now) ∨
        ((runCalls now ops b).state = .closed ∧
          b0.failureCount + (k + ops.length) ≤ (runCalls now ops b).failureCount ∧
          (1 ≤ k + ops.length → (runCalls now ops b).failureCount < 5)) := by
  intro ops
  induction ops with
  | nil =>
      intro b k _ hb
      simpa [runCalls] using hb
  | cons op rest ih =>
      intro b k hns hb
      have hrun : runCalls now (op :: rest) b = runCalls now rest (withRetry now op b).2.1 := by
        simp [runCalls]
      rw [hrun]
      simp only [List.length_cons]
      have hnsop : ∀ i, op i ≠ .success := hns op (by simp)
      have hnsrest : ∀ o ∈ rest, ∀ i, o i ≠ .success := fun o ho => hns o (by simp [ho])
      have hpre :
          ((withRetry now op b).2.1.state = .opened ∧
             (withRetry now op b).2.1.lastFailureTime = some now) ∨
            ((withRetry now op b).2.1.state = .closed ∧
              b0.failureCount + (k + 1) ≤ (withRetry now op b).2.1.failureCount ∧
              (1 ≤ k + 1 → (withRetry now op b).2.1.failureCount < 5)) := by
        rcases hb with ⟨hst, hlt⟩ | ⟨hst, hcnt, hlt5⟩
        · rw [withRetry_opened_window now now op b hst hlt (by omega)]
          exact .inl ⟨hst, hlt⟩
        · have hcall := withRetry_noSuccess_closed now op hnsop b hst
          rcases hcall.2 with h | ⟨h1, h2⟩
          · exact .inl h
          · have := hcall.1
            exact .inr ⟨h1, by omega, fun _ => h2⟩
      have hres := ih (withRetry now op b).2.1 (k + 1) hnsrest hpre
      rcases hres with h | ⟨h1, h2, h3⟩
      · exact .inl h
      · exact .inr ⟨h1, by omega, fun _ => h3 (by omega)⟩

/-- C10: every failing operation — non-transient errors included — is
recorded against the circuit breaker, so five consecutive failing
`_with_retry` calls from any closed breaker leave it open, and any
subsequent call within the 60-second recovery window is rejected fast
with `ConnectionError`, the wrapped operation never executing. -/
theorem c10_breaker_opens_and_rejects
    (b0 : Breaker) (h0 : b0.state = .closed)
    (ops : List (Nat → AttemptOutcome)) (hlen : ops.length = 5)
    (hfail : ∀ op ∈ ops, ∀ i, op i ≠ .success)
    (now tLater : Nat) (hwin : tLater - now < 60)
    (probe : Nat → AttemptOutcome) :
    (runCalls now ops b0).state = .opened ∧
      withRetry tLater probe (runCalls now ops b0) =
        (.connectionError, runCalls now ops b0, 0) := by
  have hinv := runCalls_noSuccess_aux now b0 ops b0 0 hfail
    (.inr ⟨h0, by omega, by omega⟩)
  rw [hlen] at hinv
  have hopen : (runCalls now ops b0).state = .opened ∧
      (runCalls now ops b0).lastFailureTime = some now := by
    rcases hinv with h | ⟨_, h2, h3⟩
    · exact h
    · exfalso
      have := h3 (by omega)
      omega
  exact ⟨hopen.1,
    withRetry_opened_window tLater now probe _ hopen.1 hopen.2 hwin⟩

/-- Witness for `c10_breaker_opens_and_rejects`: five calls whose every
attempt raises a non-transient error, from a fresh breaker, probed 59
seconds after the failures. -/
theorem c10_breaker_opens_and_rejects_witness :
    breakerInit.state = .closed ∧
      (runCalls 0 (List.replicate 5 (fun _ => .fatalError)) breakerInit).state =
        .opened ∧
      withRetry 59 (fun _ => .success)
          (runCalls 0 (List.replicate 5 (fun _ => .fatalError)) breakerInit) =
        (.connectionError,
          runCalls 0 (List.replicate 5 (fun _ => .fatalError)) breakerInit, 0) := by
  have h := c10_breaker_opens_and_rejects breakerInit rfl
    (List.replicate 5 (fun _ => .fatalError)) (by simp)
    (by
      intro op hop i
      rw [List.eq_of_mem_replicate hop]
      simp)
    0 59 (by omega) (fun _ => .success)
  exact ⟨rfl, h.1, h.2⟩

/-! ## C1 — dequeue ordering and eligibility -/

theorem dequeueBefore_irrefl (t : TaskDoc) : dequeueBefore t t = false := by
  simp [dequeueBefore]

/-- The lexicographic dequeue order is transitive. -/
theorem dequeueBefore_trans (x y z : TaskDoc)
    (h1 : dequeueBefore x y = true) (h2 : dequeueBefore y z = true) :
    dequeueBefore x z = true := by
  simp only [dequeueBefore, Bool.or_eq_true, Bool.and_eq_true, decide_eq_true_eq] at h1 h2 ⊢
  rcases h1 with h1 | ⟨h1a, h1b⟩ <;> rcases h2 with h2 | ⟨h2a, h2b⟩
  · left; omega
  · left; omega
  · left; omega
  · right; exact ⟨by omega, by omega⟩

/-- The complement of the dequeue order is transitive (it is a total
preorder). -/
theorem dequeueBefore_neg_trans (t a b : TaskDoc)
    (h1 : dequeueBefore t a = false) (h2 : dequeueBefore a b = false) :
    dequeueBefore t b = false := by
  simp only [dequeueBefore, Bool.or_eq_false_iff, Bool.and_eq_false_iff,
    decide_eq_false_iff_not] at h1 h2 ⊢
  obtain ⟨h1a, h1b⟩ := h1
  obtain ⟨h2a, h2b⟩ := h2
  constructor
  · omega
  · rcases h1b with h | h <;> rcases h2b with h' | h' <;> omega

/-- The accumulator fold underlying `selectBest`, started from `some a`,
returns an element of `a :: xs` that none of `a :: xs` strictly
precedes. -/
theorem selectFold_spec (xs : List TaskDoc) :
    ∀ a : TaskDoc,
      ∃ b,
        xs.foldl
            (fun acc t =>
              match acc with
              | none => some t
              | some c => if dequeueBefore t c then some t else some c)
            (some a) = some b ∧
          (b = a ∨ b ∈ xs) ∧ dequeueBefore a b = false ∧
          ∀ x ∈ xs, dequeueBefore x b = false := by
  induction xs with
  | nil =>
      intro a
      exact ⟨a, rfl, .inl rfl, dequeueBefore_irrefl a, by simp⟩
  | cons t rest ih =>
      intro a
      by_cases hta : dequeueBefore t a = true
      · obtain ⟨b, hfold, hmem, hnb, hall⟩ := ih t
        refine ⟨b, ?_, ?_, ?_, ?_⟩
        · simpa [hta] using hfold
        · rcases hmem with rfl | h
          · exact .inr (by simp)
          · exact .inr (by simp [h])
        · by_contra hc
          rw [Bool.not_eq_false] at hc
          have := dequeueBefore_trans t a b hta hc
          rw [this] at hnb
          exact absurd hnb (by simp)
        · intro x hx
          rcases List.mem_cons.mp hx with rfl | hx'
          · exact hnb
          · exact hall x hx'
      · obtain ⟨b, hfold, hmem, hnb, hall⟩ := ih a
        rw [Bool.not_eq_true] at hta
        refine ⟨b, ?_, ?_, hnb, ?_⟩
        · simpa [hta] using hfold
        · rcases hmem with rfl | h
          · exact .inl rfl
          · exact .inr (by simp [h])
        · intro x hx
          rcases List.mem_cons.mp hx with rfl | hx'
          · exact dequeueBefore_neg_trans x a b hta hnb
          · exact hall x hx'

theorem selectBest_cons (x : TaskDoc) (xs : List TaskDoc) :
    selectBest (x :: xs) =
      xs.foldl
        (fun acc t =>
          match acc with
          | none => some t
          | some c => if dequeueBefore t c then some t else some c)
        (some x) := rfl

theorem selectBest_none_iff (l : List TaskDoc) : selectBest l = none ↔ l = [] := by
  cases l with
  | nil => simp [selectBest]
  | cons x xs =>
      obtain ⟨b, hfold, _, _, _⟩ := selectFold_spec xs x
      rw [selectBest_cons, hfold]
      simp

theorem selectBest_some_spec (l : List TaskDoc) (b : TaskDoc)
    (h : selectBest l = some b) :
    b ∈ l ∧ ∀ x ∈ l, dequeueBefore x b = false := by
  cases l with
  | nil => simp [selectBest] at h
  | cons x xs =>
      obtain ⟨b', hfold, hmem, hnb, hall⟩ := selectFold_spec xs x
      have h' : selectBest (x :: xs) = some b' := by
        rw [selectBest_cons]
        exact hfold
      rw [h'] at h
      obtain rfl : b' = b := by injection h
      constructor
      · rcases hmem with rfl | hm
        · simp
        · simp [hm]
      · intro y hy
        rcases List.mem_cons.mp hy with rfl | hy'
        · exact hnb
        · exact hall y hy'

/-- C1 (amended): `dequeue_next_task` returns `None` exactly when no task
has `status="pending"` with `scheduled_at ≤ now` (and the requested type);
otherwise it atomically stamps `status="processing"`, `started_at` and
`last_update` on a matching task that no other matching task strictly
precedes under (priority descending, created_at ascending).  The
`dependencies` list is not consulted, and ties beyond (priority,
created_at) are broken by the store's document order, not by id. -/
theorem c1_amended_dequeue (now : Nat) (taskType : Option String) (q : Queue) :
    ((dequeueNextTask now taskType q).1 = none ∧
        (dequeueNextTask now taskType q).2 = q ∧
        ∀ u ∈ q, dequeueMatches now taskType u = false) ∨
      (∃ t0 ∈ q,
        dequeueMatches now taskType t0 = true ∧
        (dequeueNextTask now taskType q).1 = some (dequeueStamp now t0) ∧
        (dequeueStamp now t0).status = "processing" ∧
        (dequeueStamp now t0).startedAt = some now ∧
        (∀ u ∈ q, dequeueMatches now taskType u = true → dequeueBefore u t0 = false) ∧
        (dequeueNextTask now taskType q).2 =
          q.map (fun u => if u.tid = t0.tid then dequeueStamp now u else u)) := by
  cases hsel : selectBest (q.filter (dequeueMatches now taskType)) with
  | none =>
      left
      have hnil := (selectBest_none_iff _).mp hsel
      refine ⟨?_, ?_, ?_⟩
      · simp [dequeueNextTask, hsel]
      · simp [dequeueNextTask, hsel]
      · intro u hu
        by_contra hne
        rw [Bool.not_eq_false] at hne
        have : u ∈ q.filter (dequeueMatches now taskType) := by
          simp [List.mem_filter, hu, hne]
        rw [hnil] at this
        simp at this
  | some t0 =>
      right
      obtain ⟨hmem, hbest⟩ := selectBest_some_spec _ _ hsel
      rw [List.mem_filter] at hmem
      refine ⟨t0, hmem.1, hmem.2, ?_, rfl, rfl, ?_, ?_⟩
      · simp [dequeueNextTask, hsel]
      · intro u hu hmatch
        exact hbest u (by simp [List.mem_filter, hu, hmatch])
      · simp [dequeueNextTask, hsel]

/-- C1 counterexample: with task 1 pending & due but dependent on task 2,
which is still `processing`, no task satisfies the claim's eligibility
(pending, due, all dependencies completed), so the claim requires `None`;
the code's query ignores `dependencies` and leases task 1 anyway. -/
theorem c1_counterexample :
    (dequeueNextTask 100 none [cexTaskA, cexTaskB]).1 =
        some (dequeueStamp 100 cexTaskA) ∧
      claimEligible 100 none [cexTaskA, cexTaskB] cexTaskA = false ∧
      claimEligible 100 none [cexTaskA, cexTaskB] cexTaskB = false := by
  refine ⟨rfl, rfl, rfl⟩

/-! ## C3 — alert deduplication -/

theorem sanitize_sampleContext :
    sanitizeDoc [("error_code", BVal.vStr "TIMEOUT")] =
      [("error_code", BVal.vStr "TIMEOUT")] := by
  rw [sanitizeDoc_cons]
  have h : startsWithDollar "error_code" = false := by decide
  simp [h, sanitizeDoc_nil, sanitizeVal]

/-- `create_alert`'s insert branch, symbolically (keeping the fingerprint
opaque): valid fields, not suppressed, no active duplicate. -/
theorem createAlert_insert (now newId : Nat) (a : AlertInput) (s : AlertsState)
    (h1 : ¬ a.alertType = "") (h2 : ¬ a.title = "")
    (h3 : severityLevels.contains a.severity = true)
    (h4 : isAlertSuppressed now s.suppressions a.alertType = false)
    (h5 : s.alerts.find?
        (fun d => d.alertHash = calculateAlertHash a.alertType a.siteId a.context &&
          d.status = "active") = none) :
    createAlert now newId a s =
      .ok (some newId,
        { s with
          alerts :=
            s.alerts ++
              [{ aid := newId, alertType := a.alertType, severity := a.severity,
                 title := a.title, message := a.message, siteId := a.siteId,
                 context := sanitizeDoc a.context, status := "active",
                 alertHash := calculateAlertHash a.alertType a.siteId a.context,
                 occurrenceCount := 1, notificationSent := false,
                 createdAt := now, lastSeen := now, updatedAt := some now }] }) := by
  unfold createAlert
  rw [if_neg h1, if_neg h2, if_neg (by simpa using h3), if_neg (by simp [h4])]
  simp only [h5]

/-- `create_alert`'s dedup branch, symbolically: an active alert with the
same fingerprint exists; nothing is inserted, the existing id is
returned, and the stored alert only gets `updated_at` refreshed (the
`$set`/`$inc` operator document is emptied by the sanitizer). -/
theorem createAlert_dedup (now newId : Nat) (a : AlertInput) (s : AlertsState)
    (existing : AlertDoc)
    (h1 : ¬ a.alertType = "") (h2 : ¬ a.title = "")
    (h3 : severityLevels.contains a.severity = true)
    (h4 : isAlertSuppressed now s.suppressions a.alertType = false)
    (h5 : s.alerts.find?
        (fun d => d.alertHash = calculateAlertHash a.alertType a.siteId a.context &&
          d.status = "active") = some existing) :
    createAlert now newId a s =
      .ok (some existing.aid,
        { s with
          alerts :=
            s.alerts.map
              (fun d => if d.aid = existing.aid then { d with updatedAt := some now } else d) }) := by
  unfold createAlert
  rw [if_neg h1, if_neg h2, if_neg (by simpa using h3), if_neg (by simp [h4])]
  simp only [h5]

/-- C3: two identical `create_alert` calls.  The first inserts the alert
with `occurrence_count = 1`.  The second finds the active alert with the
same fingerprint, inserts nothing and returns the existing id — but its
`{"$set": {"last_seen": ...}, "$inc": {"occurrence_count": 1}}` update is
emptied by the base sanitizer, so `occurrence_count` stays 1 and
`last_seen` stays at the first call's time; only `updated_at` moves.  The
claim's dedup/uniqueness part holds; the increment-and-bump part is a
code bug (the repository's own comment and test pin the intended
update). -/
theorem c3_create_alert_code_bug :
    createAlert 10 1 sampleAlert ⟨[], []⟩ =
        .ok (some 1, ⟨[sampleAlertDoc 10], []⟩) ∧
      createAlert 20 2 sampleAlert ⟨[sampleAlertDoc 10], []⟩ =
        .ok (some 1, ⟨[{ sampleAlertDoc 10 with updatedAt := some 20 }], []⟩) ∧
      ({ sampleAlertDoc 10 with updatedAt := some 20 } : AlertDoc).occurrenceCount = 1 ∧
      ({ sampleAlertDoc 10 with updatedAt := some 20 } : AlertDoc).lastSeen = 10 := by
  refine ⟨?_, ?_, rfl, rfl⟩
  · rw [createAlert_insert 10 1 sampleAlert ⟨[], []⟩ (by decide) (by decide)
      (by decide) rfl rfl]
    simp only [sampleAlert, List.nil_append]
    rw [sanitize_sampleContext]
    rfl
  · have hp :
        ((fun d => d.alertHash =
            calculateAlertHash sampleAlert.alertType sampleAlert.siteId sampleAlert.context &&
          d.status = "active") (sampleAlertDoc 10)) = true := by
      simp only [Bool.and_eq_true, decide_eq_true_eq]
      exact ⟨rfl, rfl⟩
    have hfind :
        [sampleAlertDoc 10].find?
            (fun d => d.alertHash =
              calculateAlertHash sampleAlert.alertType sampleAlert.siteId sampleAlert.context &&
              d.status = "active") = some (sampleAlertDoc 10) :=
      List.find?_cons_of_pos _ hp
    rw [createAlert_dedup 20 2 sampleAlert ⟨[sampleAlertDoc 10], []⟩ (sampleAlertDoc 10)
      (by decide) (by decide) (by decide) rfl hfind]
    rfl

/-- The fingerprint invariant half of C3: `create_alert` preserves
"at most one active alert per fingerprint" (the suppressed path and the
dedup path insert nothing; the insert path only runs when no active alert
with the fingerprint exists). -/
theorem createAlert_preserves_at_most_one_active
    (now newId : Nat) (a : AlertInput) (s : AlertsState)
    (r : Option Nat) (s' : AlertsState)
    (hok : createAlert now newId a s = .ok (r, s'))
    (hinv : atMostOneActivePerFingerprint s.alerts) :
    atMostOneActivePerFingerprint s'.alerts := by
  simp only [createAlert] at hok
  split at hok
  · simp at hok
  split at hok
  · simp at hok
  split at hok
  · simp at hok
  split at hok
  · simp only [Except.ok.injEq, Prod.mk.injEq] at hok
    obtain ⟨-, rfl⟩ := hok
    exact hinv
  split at hok
  case _ existing hfind =>
      simp only [Except.ok.injEq, Prod.mk.injEq] at hok
      obtain ⟨-, rfl⟩ := hok
      intro hh
      have hlen := hinv hh
      have hmapfilter :
          (s.alerts.map
              (fun d => if d.aid = existing.aid then { d with updatedAt := some now } else d)).filter
              (fun d => d.alertHash = hh && d.status = "active") =
            (s.alerts.filter
              (fun d => d.alertHash = hh && d.status = "active")).map
              (fun d => if d.aid = existing.aid then { d with updatedAt := some now } else d) := by
        rw [List.filter_map]
        congr 1
        apply List.filter_congr
        intro d _
        by_cases hd : d.aid = existing.aid <;> simp [hd]
      simp only [hmapfilter, List.length_map]
      exact hlen
  case _ hfind =>
      simp only [Except.ok.injEq, Prod.mk.injEq] at hok
      obtain ⟨-, rfl⟩ := hok
      intro hh
      rw [List.filter_append]
      by_cases hsame : calculateAlertHash a.alertType a.siteId a.context = hh
      · have hnone :
            s.alerts.filter (fun d => d.alertHash = hh && d.status = "active") = [] := by
          rw [List.filter_eq_nil_iff]
          intro d hd
          have := List.find?_eq_none.mp hfind d hd
          simpa [hsame] using this
        rw [hnone]
        simp only [List.nil_append]
        exact le_trans (List.length_filter_le _ _) (by simp)
      · have hnew :
            ([({ aid := newId, alertType := a.alertType, severity := a.severity,
                 title := a.title, message := a.message, siteId := a.siteId,
                 context := sanitizeDoc a.context, status := "active",
                 alertHash := calculateAlertHash a.alertType a.siteId a.context,
                 occurrenceCount := 1, notificationSent := false,
                 createdAt := now, lastSeen := now,
                 updatedAt := some now } : AlertDoc)].filter
                (fun d => d.alertHash = hh && d.status = "active")) = [] := by
          simp [hsame]
        rw [hnew]
        simpa using hinv hh

/-! ## C4 — session completion -/

/-- `complete_crawl_session` with the session found: the built update is
passed as an operator document, so only `updated_at` is persisted, the
call returns `False`, and the sites collection is untouched (the site
write at line 230 is only reached on reported success, which never
happens). -/
theorem completeSession_found (now sessionId : Nat) (finalStats : SessionStats)
    (sessions : List SessionDoc) (sites : List SiteDoc) (sess : SessionDoc)
    (h : sessions.find? (fun t => t.sid = sessionId) = some sess) :
    completeCrawlSession now sessionId finalStats sessions sites =
      (false,
        sessions.map
          (fun u => if u.sid = sessionId then { u with updatedAt := some now } else u),
        sites) := by
  unfold completeCrawlSession
  rw [h]
  have heff :
      prepareUpdateData
          [("$set", BVal.vObj (completeSessionUpdateData finalStats sess.startedAt now))]
          now =
        [("updated_at", .vTime now)] :=
    prepareUpdateData_operator_doc _ _ _ (by decide)
  simp only [heff]
  rfl

/-- C4 (amended): `complete_crawl_session` looks the session up, computes
`duration_seconds = now − started_at` and builds the full completion
update (status completed, final stats, completed_at), but the update is
handed to `update_one` as an operator document whose keys the sanitizer
strips, so only `updated_at` is persisted, the call returns `False`, and
the parent site's `monitoring.last_crawl_time` is never advanced — and
even as written, the site write would be a second, separate update after
the session update, not one atomic scope. -/
theorem c4_complete_session_amended (now sessionId : Nat) (finalStats : SessionStats)
    (sessions : List SessionDoc) (sites : List SiteDoc) (sess : SessionDoc)
    (h : sessions.find? (fun t => t.sid = sessionId) = some sess) :
    completeCrawlSession now sessionId finalStats sessions sites =
      (false,
        sessions.map
          (fun u => if u.sid = sessionId then { u with updatedAt := some now } else u),
        sites) ∧
      getVal (completeSessionUpdateData finalStats sess.startedAt now) "status" =
        some (.vStr "completed") ∧
      getVal (completeSessionUpdateData finalStats sess.startedAt now) "completed_at" =
        some (.vTime now) ∧
      (∃ stats,
        getVal (completeSessionUpdateData finalStats sess.startedAt now) "stats" =
          some (.vObj stats) ∧
        getVal stats "duration_seconds" = some (.vInt (now - sess.startedAt)) ∧
        getVal stats "end_time" = some (.vTime now)) := by
  refine ⟨completeSession_found now sessionId finalStats sessions sites sess h,
    rfl, rfl, ⟨_, rfl, rfl, rfl⟩⟩

/-- Witness for `c4_complete_session_amended`. -/
theorem c4_complete_session_amended_witness :
    ([sampleSession].find? (fun t => t.sid = 1) = some sampleSession) ∧
      completeCrawlSession 100 1 ⟨200, 190, 5, 0, 0⟩ [sampleSession] [sampleSite] =
        (false, [{ sampleSession with updatedAt := some 100 }], [sampleSite]) := by
  refine ⟨rfl, ?_⟩
  have h := c4_complete_session_amended 100 1 ⟨200, 190, 5, 0, 0⟩
    [sampleSession] [sampleSite] sampleSession rfl
  exact h.1

/-- C4 counterexample: completing a running session writes neither the
completed status nor the final stats, returns `False`, and leaves the
site's `last_crawl_time` unset — refuting the claim that the final stats,
`status=completed` and the site's `last_crawl_time=now` are written in
one atomic scope. -/
theorem c4_counterexample :
    completeCrawlSession 100 1 ⟨200, 190, 5, 0, 0⟩ [sampleSession] [sampleSite] =
      (false, [{ sampleSession with updatedAt := some 100 }], [sampleSite]) ∧
      ({ sampleSession with updatedAt := some 100 } : SessionDoc).status = "running" ∧
      sampleSite.lastCrawlTime = none := by
  refine ⟨?_, rfl, rfl⟩
  rw [completeSession_found 100 1 ⟨200, 190, 5, 0, 0⟩ [sampleSession] [sampleSite]
    sampleSession rfl]
  rfl

/-! ## C9 — content hashing by the storage primitives -/

/-- `update_page_content` as composed: for every store state, only the
`updated_at` stamp reaches the matched page and the call returns
`False`. -/
theorem updatePageContent_eq (now pageId : Nat) (content contentHashArg : String)
    (pages : List PageDoc) :
    updatePageContent now pageId content contentHashArg pages =
      (false,
        pages.map
          (fun p => if p.pid = pageId then { p with updatedAt := some now } else p)) := by
  unfold updatePageContent
  have heff :
      prepareUpdateData
          [("$set", BVal.vObj (updatePageContentData content contentHashArg now))] now =
        [("updated_at", .vTime now)] :=
    prepareUpdateData_operator_doc _ _ _ (by decide)
  simp only [heff]
  rfl

/-- C9 (amended): the storage primitives do recompute `content_hash` —
both `insert_one` and `update_one` write
`content_hash = SHA-256(content)` whenever their (sanitized) field map
carries a top-level `content` key — but `update_page_content` never hands
them such a map: it wraps its fields in `{"$set": ...}`, which the
sanitizer empties, so neither the caller-supplied hash nor any recomputed
hash is persisted; only `updated_at` changes and the call returns
`False`. -/
theorem c9_amended_content_hash (u : Doc) (now : Nat) (c : BVal)
    (hc : getVal (sanitizeDoc u) "content" = some c)
    (pages : List PageDoc) (pageId : Nat) (content contentHashArg : String) :
    getVal (prepareUpdateData u now) "content_hash" =
        some (.vStr (generateContentHash c)) ∧
      getVal (prepareInsertDoc u now) "content_hash" =
        some (.vStr (generateContentHash c)) ∧
      updatePageContent now pageId content contentHashArg pages =
        (false,
          pages.map
            (fun p => if p.pid = pageId then { p with updatedAt := some now } else p)) := by
  refine ⟨?_, ?_, updatePageContent_eq now pageId content contentHashArg pages⟩
  · simp only [prepareUpdateData]
    have h2 : getVal (setVal (sanitizeDoc u) "updated_at" (.vTime now)) "content" = some c := by
      rw [getVal_setVal_ne _ _ _ _ (by decide)]
      exact hc
    simp only [h2]
    exact getVal_setVal_self _ _ _
  · simp only [prepareInsertDoc]
    have h2 :
        getVal
            (setVal (setVal (sanitizeDoc u) "created_at" (.vTime now)) "updated_at"
              (.vTime now))
            "content" = some c := by
      rw [getVal_setVal_ne _ _ _ _ (by decide), getVal_setVal_ne _ _ _ _ (by decide)]
      exact hc
    simp only [h2]
    exact getVal_setVal_self _ _ _

/-- Witness for `c9_amended_content_hash`. -/
theorem c9_amended_content_hash_witness :
    getVal (sanitizeDoc [("content", BVal.vStr "x")]) "content" = some (.vStr "x") ∧
      getVal (prepareUpdateData [("content", BVal.vStr "x")] 7) "content_hash" =
        some (.vStr (generateContentHash (.vStr "x"))) := by
  have hc : getVal (sanitizeDoc [("content", BVal.vStr "x")]) "content" =
      some (BVal.vStr "x") := by
    rw [sanitizeDoc_cons]
    have h : startsWithDollar "content" = false := by decide
    simp [h, sanitizeDoc_nil, sanitizeVal, getVal, List.find?]
  have h := c9_amended_content_hash [("content", BVal.vStr "x")] 7 (.vStr "x") hc [] 1 "c" "h"
  exact ⟨hc, h.1⟩

set_option maxRecDepth 1000000 in
/-- C9 counterexample: `update_page_content(id, content, hash)` on an
existing page persists neither the content, nor the caller's hash, nor a
recomputed hash — the stored `content_hash` stays what it was, and it is
not the SHA-256 of the new content, refuting the claim that the stored
hash always equals the primitive's recomputation. -/
theorem c9_counterexample :
    updatePageContent 100 1 "new content" "bogus" [samplePage] =
      (false, [{ samplePage with updatedAt := some 100 }]) ∧
      ({ samplePage with updatedAt := some 100 } : PageDoc).contentHash = some "oldhash" ∧
      "oldhash" ≠ Hash.sha256hex "new content" := by
  refine ⟨?_, rfl, ?_⟩
  · rw [updatePageContent_eq]
    rfl
  · intro hcontra
    have hlen : ("oldhash").length = (Hash.sha256hex "new content").length := by
      rw [hcontra]
    revert hlen
    decide

/-! ## C6 — URL normalization -/

theorem splitAtChar_not_mem (c : Char) (l : List Char) (h : c ∉ l) :
    splitAtChar c l = (l, none) := by
  induction l with
  | nil => rfl
  | cons x xs ih =>
      have hx : ¬ x = c := by
        intro hc
        exact h (hc ▸ List.mem_cons_self x xs)
      have hxs : c ∉ xs := fun hc => h (List.mem_cons_of_mem x hc)
      simp [splitAtChar, hx, ih hxs]

theorem splitAtChar_append (c : Char) (l1 l2 : List Char) (h : c ∉ l1) :
    splitAtChar c (l1 ++ c :: l2) = (l1, some l2) := by
  induction l1 with
  | nil => simp [splitAtChar]
  | cons x xs ih =>
      have hx : ¬ x = c := by
        intro hc
        exact h (hc ▸ List.mem_cons_self x xs)
      have hxs : c ∉ xs := fun hc => h (List.mem_cons_of_mem x hc)
      simp [splitAtChar, hx, ih hxs]

theorem spanUntil_not_mem (stops : List Char) (l : List Char)
    (h : ∀ x ∈ l, x ∉ stops) :
    spanUntil stops l = (l, []) := by
  induction l with
  | nil => rfl
  | cons x xs ih =>
      have hx := h x (List.mem_cons_self x xs)
      have hxs : ∀ y ∈ xs, y ∉ stops := fun y hy => h y (List.mem_cons_of_mem x hy)
      simp [spanUntil, hx, ih hxs]

theorem spanUntil_append (stops : List Char) (l1 : List Char) (x : Char)
    (l2 : List Char) (h : ∀ y ∈ l1, y ∉ stops) (hx : x ∈ stops) :
    spanUntil stops (l1 ++ x :: l2) = (l1, x :: l2) := by
  induction l1 with
  | nil => simp [spanUntil, hx]
  | cons y ys ih =>
      have hy := h y (List.mem_cons_self y ys)
      have hys : ∀ z ∈ ys, z ∉ stops := fun z hz => h z (List.mem_cons_of_mem y hz)
      simp [spanUntil, hy, ih hys]

theorem dropWhile_append_eq (p : Char → Bool) (l1 l2 : List Char) :
    List.dropWhile p (l1 ++ l2) =
      if List.dropWhile p l1 = [] then List.dropWhile p l2
      else List.dropWhile p l1 ++ l2 := by
  induction l1 with
  | nil => simp
  | cons x xs ih =>
      by_cases hx : p x
      · simpa [List.dropWhile_cons, hx] using ih
      · simp [List.dropWhile_cons, hx]

theorem rdropWhile_append_eq (p : Char → Bool) (l1 l2 : List Char) :
    List.rdropWhile p (l1 ++ l2) =
      if List.rdropWhile p l2 = [] then List.rdropWhile p l1
      else l1 ++ List.rdropWhile p l2 := by
  simp only [List.rdropWhile, List.reverse_append]
  rw [dropWhile_append_eq]
  by_cases h : List.dropWhile p l2.reverse = []
  · simp [h]
  · rw [if_neg h, if_neg (by simpa using h)]
    simp

theorem rstripSlashes_data (s : String) :
    (rstripSlashes s).data = s.data.rdropWhile (fun c => c = '/') := by
  simp [rstripSlashes, List.rdropWhile]

/-- `urlparse` on a well-formed absolute URL built from components:
the scheme is lowercased, the netloc is preserved verbatim, and the
path, query and fragment are recovered. -/
theorem pyUrlparse_built (scheme netloc path query : String) (frag : Option String)
    (hs : ∀ c ∈ scheme.data, ¬ c = ':' ∧ ¬ c = '#')
    (hn : ∀ c ∈ netloc.data, ¬ c = '/' ∧ ¬ c = '?' ∧ ¬ c = '#')
    (hp1 : path.data = [] ∨ ∃ rest, path.data = '/' :: rest)
    (hp2 : ∀ c ∈ path.data, ¬ c = '?' ∧ ¬ c = '#')
    (hq : ∀ c ∈ query.data, ¬ c = '#') :
    pyUrlparse
        (scheme ++ "://" ++ netloc ++ path ++
          (if query = "" then "" else "?" ++ query) ++
          (match frag with
           | some f => "#" ++ f
           | none => "")) =
      { scheme := (lowerStr scheme), netloc := netloc, path := path, query := query,
        fragment := frag.getD "" } := by
  have hqdata : (if query = "" then "" else "?" ++ query).data =
      if query.data = [] then [] else '?' :: query.data := by
    by_cases h : query = ""
    · simp [h]
    · rw [if_neg h, if_neg (by simpa [String.ext_iff] using h)]
      rfl
  have hbefore :
      (scheme ++ "://" ++ netloc ++ path ++
          (if query = "" then "" else "?" ++ query)).data =
        scheme.data ++ ':' :: '/' :: '/' ::
          (netloc.data ++ path.data ++
            (if query.data = [] then [] else '?' :: query.data)) := by
    simp [hqdata]
  have hnosharp :
      '#' ∉ scheme.data ++ ':' :: '/' :: '/' ::
        (netloc.data ++ path.data ++
          (if query.data = [] then [] else '?' :: query.data)) := by
    intro hmem
    simp only [List.mem_append, List.mem_cons] at hmem
    rcases hmem with h | h | h | h | (h | h) | h
    · exact (hs _ h).2 rfl
    · exact absurd h (by decide)
    · exact absurd h (by decide)
    · exact absurd h (by decide)
    · exact (hn _ h).2.2 rfl
    · exact (hp2 _ h).2 rfl
    · by_cases hq0 : query.data = []
      · rw [if_pos hq0] at h
        simp at h
      · rw [if_neg hq0] at h
        rcases List.mem_cons.mp h with h | h
        · exact absurd h (by decide)
        · exact hq _ h rfl
  have hfragsplit :
      splitAtChar '#'
          ((scheme ++ "://" ++ netloc ++ path ++
            (if query = "" then "" else "?" ++ query) ++
            (match frag with
             | some f => "#" ++ f
             | none => "")).data) =
        (scheme.data ++ ':' :: '/' :: '/' ::
          (netloc.data ++ path.data ++
            (if query.data = [] then [] else '?' :: query.data)),
          match frag with
          | some f => some f.data
          | none => none) := by
    cases frag with
    | none =>
        have h0 : (scheme ++ "://" ++ netloc ++ path ++
            (if query = "" then "" else "?" ++ query) ++ "").data =
          scheme.data ++ ':' :: '/' :: '/' ::
            (netloc.data ++ path.data ++
              (if query.data = [] then [] else '?' :: query.data)) := by
          simp [hqdata]
        rw [h0]
        exact splitAtChar_not_mem _ _ hnosharp
    | some f =>
        have h0 : (scheme ++ "://" ++ netloc ++ path ++
            (if query = "" then "" else "?" ++ query) ++ ("#" ++ f)).data =
          (scheme.data ++ ':' :: '/' :: '/' ::
            (netloc.data ++ path.data ++
              (if query.data = [] then [] else '?' :: query.data))) ++ '#' :: f.data := by
          simp [hqdata]
        rw [h0]
        exact splitAtChar_append _ _ _ hnosharp
  have hnocolon : ':' ∉ scheme.data := fun h => (hs _ h).1 rfl
  have hcolonsplit :
      splitAtChar ':'
          (scheme.data ++ ':' :: '/' :: '/' ::
            (netloc.data ++ path.data ++
              (if query.data = [] then [] else '?' :: query.data))) =
        (scheme.data,
          some ('/' :: '/' ::
            (netloc.data ++ path.data ++
              (if query.data = [] then [] else '?' :: query.data)))) :=
    splitAtChar_append _ _ _ hnocolon
  have hnetclean : ∀ y ∈ netloc.data, y ∉ (['/', '?'] : List Char) := by
    intro y hy hmem
    rcases List.mem_cons.mp hmem with h | hmem2
    · exact (hn y hy).1 h
    · rcases List.mem_cons.mp hmem2 with h | h
      · exact (hn y hy).2.1 h
      · simp at h
  have hspan :
      spanUntil ['/', '?']
          (netloc.data ++ path.data ++
            (if query.data = [] then [] else '?' :: query.data)) =
        (netloc.data,
          path.data ++ (if query.data = [] then [] else '?' :: query.data)) := by
    rcases hp1 with hpath | ⟨rest, hpath⟩
    · rw [hpath]
      by_cases hq0 : query.data = []
      · rw [if_pos hq0]
        simpa using spanUntil_not_mem ['/', '?'] netloc.data hnetclean
      · rw [if_neg hq0]
        simpa using
          spanUntil_append ['/', '?'] netloc.data '?' query.data hnetclean (by decide)
    · rw [hpath]
      have :=
        spanUntil_append ['/', '?'] netloc.data '/'
          (rest ++ (if query.data = [] then [] else '?' :: query.data)) hnetclean
          (by decide)
      simpa using this
  have hnoq : '?' ∉ path.data := fun h => (hp2 _ h).1 rfl
  have hqsplit :
      splitAtChar '?'
          (path.data ++ (if query.data = [] then [] else '?' :: query.data)) =
        (path.data, if query.data = [] then none else some query.data) := by
    by_cases hq0 : query.data = []
    · rw [if_pos hq0, if_pos hq0, List.append_nil]
      exact splitAtChar_not_mem _ _ hnoq
    · rw [if_neg hq0, if_neg hq0]
      exact splitAtChar_append _ _ _ hnoq
  simp only [pyUrlparse, hfragsplit, hcolonsplit, hspan, hqsplit]
  by_cases hq0 : query.data = []
  · have hqe : query = "" := String.ext hq0
    subst hqe
    cases frag with
    | none => rfl
    | some f => rfl
  · rw [if_neg hq0]
    cases frag with
    | none => rfl
    | some f => rfl

theorem rdropWhile_slash_not_mem (l : List Char) (h : '/' ∉ l) :
    l.rdropWhile (fun c => c = '/') = l := by
  rw [List.rdropWhile_eq_self_iff]
  intro hl hp
  simp only [decide_eq_true_eq] at hp
  exact h (hp ▸ List.getLast_mem hl)

theorem rdropWhile_slash_append (l1 l2 : List Char)
    (h : l1.rdropWhile (fun c => c = '/') = l1) :
    (l1 ++ l2).rdropWhile (fun c => c = '/') =
      l1 ++ l2.rdropWhile (fun c => c = '/') := by
  rw [rdropWhile_append_eq]
  by_cases h2 : l2.rdropWhile (fun c => c = '/') = []
  · rw [if_pos h2, h2, h, List.append_nil]
  · rw [if_neg h2]

theorem rdropWhile_netloc_tail (x : List Char) (netloc : List Char)
    (hne : netloc ≠ []) (hns : '/' ∉ netloc) :
    (x ++ netloc).rdropWhile (fun c => c = '/') = x ++ netloc := by
  rw [rdropWhile_append_eq, rdropWhile_slash_not_mem netloc hns, if_neg hne]

theorem rdropWhile_slash_query (x q : List Char) :
    (x ++ '?' :: q).rdropWhile (fun c => c = '/') =
      x ++ '?' :: q.rdropWhile (fun c => c = '/') := by
  have h2 : (x ++ ['?']).rdropWhile (fun c => c = '/') = x ++ ['?'] :=
    List.rdropWhile_concat_neg _ _ _ (by decide)
  have h1 : x ++ '?' :: q = (x ++ ['?']) ++ q := by simp
  rw [h1, rdropWhile_slash_append _ _ h2]
  simp

/-- C6 (amended): on a well-formed absolute URL the pages-store
normalization lowercases the scheme only — the host's case is preserved —
drops the fragment, strips ALL trailing slashes (so a root path `/`
becomes empty rather than being kept), and, when a query is present,
appends it and strips trailing slashes again, so a query's own trailing
slashes are removed rather than the query being preserved intact. -/
theorem c6_amended_normalize (scheme netloc path query : String) (frag : Option String)
    (hs : ∀ c ∈ scheme.data, ¬ c = ':' ∧ ¬ c = '#')
    (hn : ∀ c ∈ netloc.data, ¬ c = '/' ∧ ¬ c = '?' ∧ ¬ c = '#')
    (hnne : netloc.data ≠ [])
    (hp1 : path.data = [] ∨ ∃ rest, path.data = '/' :: rest)
    (hp2 : ∀ c ∈ path.data, ¬ c = '?' ∧ ¬ c = '#')
    (hq : ∀ c ∈ query.data, ¬ c = '#') :
    normalizeUrl
        (scheme ++ "://" ++ netloc ++ path ++
          (if query = "" then "" else "?" ++ query) ++
          (match frag with
           | some f => "#" ++ f
           | none => "")) =
      (lowerStr scheme) ++ "://" ++ netloc ++ rstripSlashes path ++
        (if query = "" then "" else "?" ++ rstripSlashes query) := by
  have hparse := pyUrlparse_built scheme netloc path query frag hs hn hp1 hp2 hq
  have hnslash : '/' ∉ netloc.data := fun h => (hn _ h).1 rfl
  have hl1 :
      ∀ z : List Char,
        ((lowerStr scheme).data ++ ':' :: '/' :: '/' :: netloc.data ++ z).rdropWhile
            (fun c => c = '/') =
          (lowerStr scheme).data ++ ':' :: '/' :: '/' :: netloc.data ++
            z.rdropWhile (fun c => c = '/') := by
    intro z
    have hbase :
        (((lowerStr scheme).data ++ ':' :: '/' :: '/' :: netloc.data)).rdropWhile
            (fun c => c = '/') =
          (lowerStr scheme).data ++ ':' :: '/' :: '/' :: netloc.data := by
      have :
          (lowerStr scheme).data ++ ':' :: '/' :: '/' :: netloc.data =
            ((lowerStr scheme).data ++ [':', '/', '/']) ++ netloc.data := by
        simp
      rw [this, rdropWhile_netloc_tail _ _ hnne hnslash]
    have := rdropWhile_slash_append
      ((lowerStr scheme).data ++ ':' :: '/' :: '/' :: netloc.data) z hbase
    simpa using this
  have hn1 :
      (rstripSlashes ((lowerStr scheme) ++ "://" ++ netloc ++ path)).data =
        (lowerStr scheme).data ++ ':' :: '/' :: '/' :: netloc.data ++
          path.data.rdropWhile (fun c => c = '/') := by
    rw [rstripSlashes_data]
    have :
        ((lowerStr scheme) ++ "://" ++ netloc ++ path).data =
          (lowerStr scheme).data ++ ':' :: '/' :: '/' :: netloc.data ++ path.data := by
      simp
    rw [this, hl1]
  simp only [normalizeUrl, hparse]
  by_cases hq0 : query = ""
  · rw [if_neg (by simp [hq0]), if_pos hq0]
    apply String.ext
    simp only [rstripSlashes_data]
    have hA :
        ((lowerStr scheme) ++ "://" ++ netloc ++ path).data =
          (lowerStr scheme).data ++ ':' :: '/' :: '/' :: netloc.data ++ path.data := by
      simp
    rw [hA, hl1, hl1, List.rdropWhile_idempotent]
    simp [rstripSlashes_data]
  · rw [if_pos (by simp [hq0]), if_neg hq0]
    apply String.ext
    simp only [rstripSlashes_data]
    have hd :
        (rstripSlashes ((lowerStr scheme) ++ "://" ++ netloc ++ path) ++ "?" ++ query).data =
          ((lowerStr scheme).data ++ ':' :: '/' :: '/' :: netloc.data ++
            path.data.rdropWhile (fun c => c = '/')) ++ '?' :: query.data := by
      simp [hn1]
    rw [hd, rdropWhile_slash_query]
    simp [rstripSlashes_data]

set_option maxRecDepth 10000 in
/-- C6 counterexample: the claim's normalization (lowercase host, keep the
root slash, preserve the query) disagrees with the code on concrete
inputs — the code keeps the host's upper case and strips the root slash,
and it truncates a query's trailing slash. -/
theorem c6_counterexample :
    normalizeUrl "http://EXAMPLE.com/" = "http://EXAMPLE.com" ∧
      specNormalizeUrl "http://EXAMPLE.com/" = "http://example.com/" ∧
      normalizeUrl "http://EXAMPLE.com/" ≠ specNormalizeUrl "http://EXAMPLE.com/" ∧
      normalizeUrl "http://a.com/p?q=1/" = "http://a.com/p?q=1" ∧
      specNormalizeUrl "http://a.com/p?q=1/" = "http://a.com/p?q=1/" := by
  refine ⟨by decide, by decide, by decide, by decide, by decide⟩

set_option maxRecDepth 10000 in
/-- Witness for `c6_amended_normalize`: scheme `hTTp`, host `EXAMPLE.com`,
root path, no query, a fragment. -/
theorem c6_amended_normalize_witness :
    (("EXAMPLE.com" : String)).data ≠ [] ∧
      normalizeUrl "hTTp://EXAMPLE.com/#sec" =
        lowerStr "hTTp" ++ "://" ++ "EXAMPLE.com" ++ rstripSlashes "/" ++
          (if ("" : String) = "" then "" else "?" ++ rstripSlashes "") := by
  refine ⟨by decide, ?_⟩
  have h := c6_amended_normalize "hTTp" "EXAMPLE.com" "/" "" (some "sec")
    (by decide) (by decide) (by decide) (by right; exact ⟨[], rfl⟩) (by decide) (by decide)
  have harg :
      ("hTTp" ++ "://" ++ "EXAMPLE.com" ++ "/" ++
          (if ("" : String) = "" then "" else "?" ++ "") ++
          (match some ("sec" : String) with
           | some f => "#" ++ f
           | none => "")) = "hTTp://EXAMPLE.com/#sec" := by decide
  rw [harg] at h
  exact h

theorem pyUrlparse_drop_fragment (u f : String) (h : '#' ∉ u.data) :
    pyUrlparse (u ++ "#" ++ f) = { pyUrlparse u with fragment := f } := by
  have h1 : (u ++ "#" ++ f).data = u.data ++ '#' :: f.data := by simp
  simp only [pyUrlparse, h1, splitAtChar_append '#' u.data f.data h,
    splitAtChar_not_mem '#' u.data h]
  split <;> rfl

theorem normalizeUrl_drop_fragment (u f : String) (h : '#' ∉ u.data) :
    normalizeUrl (u ++ "#" ++ f) = normalizeUrl u := by
  simp only [normalizeUrl, pyUrlparse_drop_fragment u f h]

/-- C7: `(site_id, normalized url)` is unique across pages.  A
`create_page` whose normalized URL collides with an existing page of the
same site returns `DuplicateResourceError` and leaves the collection
unchanged; a successful `create_page` preserves the uniqueness invariant;
and normalization drops the fragment, so a URL differing from an existing
page only by its fragment is a duplicate. -/
theorem c7_page_uniqueness (now newId : Nat) (pc : PageCreate) (pages : List PageDoc) :
    ((∃ p ∈ pages, p.siteId = pc.siteId ∧ p.url = normalizeUrl pc.url) →
      createPage now newId true pc pages =
        .error (.duplicateResource
          ("Page with URL " ++ normalizeUrl pc.url ++ " already exists for site"))) ∧
    (pagesUrlUnique pages →
      ∀ r, createPage now newId true pc pages = .ok r → pagesUrlUnique r.2) ∧
    (∀ u f : String, '#' ∉ u.data → normalizeUrl (u ++ "#" ++ f) = normalizeUrl u) := by
  refine ⟨?_, ?_, fun u f h => normalizeUrl_drop_fragment u f h⟩
  · rintro ⟨p, hp, hsite, hurl⟩
    rcases ho :
        pages.find? (fun q => q.siteId = pc.siteId && q.url = normalizeUrl pc.url) with
      _ | q
    · have := List.find?_eq_none.mp ho p hp
      simp [hsite, hurl] at this
    · simp [createPage, ho]
  · intro hu r hok
    simp only [createPage] at hok
    rw [if_neg (by simp)] at hok
    rcases ho :
        pages.find? (fun q => q.siteId = pc.siteId && q.url = normalizeUrl pc.url) with
      _ | q
    · rw [ho] at hok
      simp only [] at hok
      cases hok
      rw [pagesUrlUnique, List.pairwise_append]
      refine ⟨hu, List.pairwise_singleton _ _, ?_⟩
      intro a ha b hb
      simp only [List.mem_singleton] at hb
      subst hb
      have hnone := List.find?_eq_none.mp ho a ha
      simp only [Bool.and_eq_true, decide_eq_true_eq, not_and] at hnone
      rintro ⟨h1, h2⟩
      exact hnone (by simpa using h1) (by simpa using h2)
    · rw [ho] at hok
      cases hok

set_option maxRecDepth 100000 in
/-- Witness for `c7_page_uniqueness`: site 3 already holds
`http://a.com/x`; creating `http://a.com/x#frag` is rejected. -/
theorem c7_page_uniqueness_witness :
    createPage 5 7 true ⟨3, "http://a.com/x#frag", none, none⟩
        [{ pid := 1, siteId := 3, url := "http://a.com/x" }] =
      .error (.duplicateResource
        ("Page with URL " ++ normalizeUrl "http://a.com/x#frag" ++
          " already exists for site")) := by
  exact (c7_page_uniqueness 5 7 ⟨3, "http://a.com/x#frag", none, none⟩
      [{ pid := 1, siteId := 3, url := "http://a.com/x" }]).1
    ⟨{ pid := 1, siteId := 3, url := "http://a.com/x" }, by simp, rfl, by decide⟩

theorem mkDocs_length (s n : Nat) : (mkDocs s n).length = n := by
  simp [mkDocs]

theorem mkDocs_cons (s n : Nat) :
    mkDocs s (n + 1) = { rid := s, ttl := 0 } :: mkDocs (s + 1) n := by
  simp [mkDocs, List.range'_succ]

theorem mkDocs_append (s m k : Nat) :
    mkDocs s (m + k) = mkDocs s m ++ mkDocs (s + m) k := by
  unfold mkDocs
  rw [← List.map_append]
  congr 1
  rw [Nat.add_comm m k]
  have h := (List.range'_append s m k 1).symm
  rw [Nat.one_mul] at h
  exact h

theorem mkDocs_map_rid (s n : Nat) :
    (mkDocs s n).map (fun d => d.rid) = List.range' s n := by
  rw [mkDocs, List.map_map]
  exact List.map_id' (List.range' s n)

theorem oldOnes_mkDocs (s n : Nat) : oldOnes 1 (mkDocs s n) = mkDocs s n := by
  rw [oldOnes, List.filter_eq_self]
  intro a ha
  simp only [mkDocs, List.mem_map] at ha
  obtain ⟨i, _, rfl⟩ := ha
  simp

theorem mkDocs_take (s k n : Nat) (h : k ≤ n) : (mkDocs s n).take k = mkDocs s k := by
  have hsplit : mkDocs s n = mkDocs s k ++ mkDocs (s + k) (n - k) := by
    rw [← mkDocs_append]
    congr 1
    omega
  rw [hsplit]
  exact List.take_left' (mkDocs_length s k)

theorem mkDocs_drop (s k n : Nat) (h : k ≤ n) :
    (mkDocs s n).drop k = mkDocs (s + k) (n - k) := by
  have hsplit : mkDocs s n = mkDocs s k ++ mkDocs (s + k) (n - k) := by
    rw [← mkDocs_append]
    congr 1
    omega
  rw [hsplit]
  exact List.drop_left' (mkDocs_length s k)

theorem mkDocs_filter_keep (s n lo m : Nat) (h : s + n ≤ lo ∨ lo + m ≤ s) :
    (mkDocs s n).filter (fun d => ¬ (List.range' lo m).contains d.rid) = mkDocs s n := by
  rw [List.filter_eq_self]
  intro a ha
  simp only [mkDocs, List.mem_map] at ha
  obtain ⟨i, hi, rfl⟩ := ha
  obtain ⟨j, hj, rfl⟩ := List.mem_range'.mp hi
  simp only [decide_eq_true_eq]
  intro hc
  have hmem : s + 1 * j ∈ List.range' lo m := by simpa using hc
  obtain ⟨j2, hj2, hij⟩ := List.mem_range'.mp hmem
  omega

theorem mkDocs_filter_drop (s n lo m : Nat) (h1 : lo ≤ s) (h2 : s + n ≤ lo + m) :
    (mkDocs s n).filter (fun d => ¬ (List.range' lo m).contains d.rid) = [] := by
  rw [List.filter_eq_nil_iff]
  intro a ha
  simp only [mkDocs, List.mem_map] at ha
  obtain ⟨i, hi, rfl⟩ := ha
  obtain ⟨j, hj, rfl⟩ := List.mem_range'.mp hi
  simp only [decide_eq_true_eq, not_not]
  have : s + 1 * j ∈ List.range' lo m :=
    List.mem_range'.mpr ⟨s + 1 * j - lo, by omega, by omega⟩
  simpa using this

theorem archiveLoop_step_none (u : Nat → Bool) (cutoff : Nat) (name ts : String)
    (fuel iter skip : Nat) (coll : List RDoc)
    (hb : ((oldOnes cutoff coll).drop skip).take 1000 = []) :
    archiveLoop u cutoff name ts (fuel + 1) iter skip coll = ([], 0, coll) := by
  simp only [archiveLoop, hb]

theorem archiveLoop_step_fail (u : Nat → Bool) (cutoff : Nat) (name ts : String)
    (fuel iter skip : Nat) (coll : List RDoc) (hd : RDoc) (tl : List RDoc)
    (hb : ((oldOnes cutoff coll).drop skip).take 1000 = hd :: tl)
    (hu : u iter = false) :
    archiveLoop u cutoff name ts (fuel + 1) iter skip coll = ([], 0, coll) := by
  simp only [archiveLoop, hb, hu]
  simp

theorem archiveLoop_step_ok (u : Nat → Bool) (cutoff : Nat) (name ts : String)
    (fuel iter skip : Nat) (coll : List RDoc) (hd : RDoc) (tl : List RDoc)
    (hb : ((oldOnes cutoff coll).drop skip).take 1000 = hd :: tl)
    (hu : u iter = true) :
    archiveLoop u cutoff name ts (fuel + 1) iter skip coll =
      ({ key := generateArchiveKey name ts hd (tl.getLastD hd), docs := hd :: tl } ::
          (archiveLoop u cutoff name ts fuel (iter + 1) (skip + 1000)
            (coll.filter
              (fun d => ¬ ((hd :: tl).map (fun d => d.rid)).contains d.rid))).1,
        coll.length -
            (coll.filter
              (fun d => ¬ ((hd :: tl).map (fun d => d.rid)).contains d.rid)).length +
          (archiveLoop u cutoff name ts fuel (iter + 1) (skip + 1000)
            (coll.filter
              (fun d => ¬ ((hd :: tl).map (fun d => d.rid)).contains d.rid))).2.1,
        (archiveLoop u cutoff name ts fuel (iter + 1) (skip + 1000)
          (coll.filter
            (fun d => ¬ ((hd :: tl).map (fun d => d.rid)).contains d.rid))).2.2) := by
  simp only [archiveLoop, hb, hu, if_true]

theorem archiveLoop_sound (u : Nat → Bool) (cutoff : Nat) (name ts : String) :
    ∀ (fuel iter skip : Nat) (coll : List RDoc),
      (∀ up ∈ (archiveLoop u cutoff name ts fuel iter skip coll).1,
          (∃ hd tl, up.docs = hd :: tl ∧
            up.key = generateArchiveKey name ts hd (tl.getLastD hd)) ∧
          up.docs.length ≤ 1000 ∧ ∀ d ∈ up.docs, d ∈ coll ∧ d.ttl < cutoff) ∧
      (∀ d ∈ coll, d ∈ (archiveLoop u cutoff name ts fuel iter skip coll).2.2 ∨
          ∃ up ∈ (archiveLoop u cutoff name ts fuel iter skip coll).1,
            ∃ e ∈ up.docs, e.rid = d.rid) ∧
      (archiveLoop u cutoff name ts fuel iter skip coll).2.2.length ≤ coll.length ∧
      (archiveLoop u cutoff name ts fuel iter skip coll).2.1 =
        coll.length - (archiveLoop u cutoff name ts fuel iter skip coll).2.2.length := by
  intro fuel
  induction fuel with
  | zero =>
      intro iter skip coll
      rw [show archiveLoop u cutoff name ts 0 iter skip coll = ([], 0, coll) from rfl]
      exact ⟨by simp, fun d hdm => Or.inl hdm, le_refl _, by simp⟩
  | succ fuel ih =>
      intro iter skip coll
      rcases hb : ((oldOnes cutoff coll).drop skip).take 1000 with _ | ⟨hd, tl⟩
      · rw [archiveLoop_step_none u cutoff name ts fuel iter skip coll hb]
        exact ⟨by simp, fun d hdm => Or.inl hdm, le_refl _, by simp⟩
      · by_cases hu : u iter = true
        · rw [archiveLoop_step_ok u cutoff name ts fuel iter skip coll hd tl hb hu]
          set coll2 :=
            coll.filter (fun d => ¬ ((hd :: tl).map (fun d => d.rid)).contains d.rid)
            with hcoll2
          obtain ⟨ih1, ih2, ih3, ih4⟩ := ih (iter + 1) (skip + 1000) coll2
          have hbatch_mem : ∀ d ∈ hd :: tl, d ∈ coll ∧ d.ttl < cutoff := by
            intro d hdm
            have hdm2 : d ∈ ((oldOnes cutoff coll).drop skip).take 1000 := by
              rw [hb]; exact hdm
            have hold : d ∈ oldOnes cutoff coll :=
              List.mem_of_mem_drop (List.mem_of_mem_take hdm2)
            rw [oldOnes] at hold
            have := List.mem_filter.mp hold
            exact ⟨this.1, by simpa using this.2⟩
          have hlen_batch : (hd :: tl).length ≤ 1000 := by
            rw [← hb]; exact List.length_take_le 1000 _
          have hsub2 : ∀ d ∈ coll2, d ∈ coll := fun d h => (List.mem_filter.mp h).1
          have h5 : coll2.length ≤ coll.length := List.length_filter_le _ _
          refine ⟨?_, ?_, ?_, ?_⟩
          · intro up hup
            rcases List.mem_cons.mp hup with rfl | hup2
            · exact ⟨⟨hd, tl, rfl, rfl⟩, hlen_batch, hbatch_mem⟩
            · obtain ⟨hk, hl, hm⟩ := ih1 up hup2
              exact ⟨hk, hl, fun d hdm => ⟨hsub2 d (hm d hdm).1, (hm d hdm).2⟩⟩
          · intro d hdc
            by_cases hin : d.rid ∈ (hd :: tl).map (fun d => d.rid)
            · right
              refine ⟨_, List.mem_cons_self _ _, ?_⟩
              obtain ⟨e, he, hre⟩ := List.mem_map.mp hin
              exact ⟨e, he, hre⟩
            · have hdc2 : d ∈ coll2 := by
                rw [hcoll2]
                refine List.mem_filter.mpr ⟨hdc, ?_⟩
                simpa using hin
              rcases ih2 d hdc2 with h | ⟨up, hup, he⟩
              · exact Or.inl h
              · exact Or.inr ⟨up, List.mem_cons_of_mem _ hup, he⟩
          · exact le_trans ih3 h5
          · dsimp only
            omega
        · rw [archiveLoop_step_fail u cutoff name ts fuel iter skip coll hd tl hb
            (by simpa using hu)]
          exact ⟨by simp, fun d hdm => Or.inl hdm, le_refl _, by simp⟩

/-- C5 (amended): each uploaded archive object covers one non-empty batch
of at most 1000 documents older than the cutoff, under the key
`archives/<collection>/<ts>_<firstId>_<lastId>.json.gz`; a document is
removed from the store only if its id belongs to some successfully
uploaded batch (so nothing is deleted from a failed batch onward); and
the reported archived count equals the number of documents actually
removed.  The run does NOT promise to archive all matching documents:
the paging skip grows while successful batches shrink the collection, so
a fully successful run can terminate with matching documents left behind
(see the 2500-document run below). -/
theorem c5_amended_retention (uploadOk : Nat → Bool) (cutoff : Nat) (name ts : String)
    (coll : List RDoc) :
    (∀ up ∈ (archiveOldDocuments uploadOk cutoff name ts coll).1,
        (∃ hd tl, up.docs = hd :: tl ∧
          up.key = generateArchiveKey name ts hd (tl.getLastD hd)) ∧
        up.docs.length ≤ 1000 ∧ ∀ d ∈ up.docs, d ∈ coll ∧ d.ttl < cutoff) ∧
    (∀ d ∈ coll, d ∈ (archiveOldDocuments uploadOk cutoff name ts coll).2.2 ∨
        ∃ up ∈ (archiveOldDocuments uploadOk cutoff name ts coll).1,
          ∃ e ∈ up.docs, e.rid = d.rid) ∧
    (archiveOldDocuments uploadOk cutoff name ts coll).2.1 =
      coll.length - (archiveOldDocuments uploadOk cutoff name ts coll).2.2.length := by
  have h := archiveLoop_sound uploadOk cutoff name ts (coll.length + 1) 0 0 coll
  exact ⟨h.1, h.2.1, h.2.2.2⟩

/-- Witness for `c5_amended_retention`: the single old document either
survives the run or its id was uploaded. -/
theorem c5_amended_retention_witness :
    (⟨0, 0⟩ : RDoc) ∈
        (archiveOldDocuments (fun _ => true) 1 "s" "t" [⟨0, 0⟩]).2.2 ∨
      ∃ up ∈ (archiveOldDocuments (fun _ => true) 1 "s" "t" [⟨0, 0⟩]).1,
        ∃ e ∈ up.docs, e.rid = (⟨0, 0⟩ : RDoc).rid := by
  exact (c5_amended_retention (fun _ => true) 1 "s" "t" [⟨0, 0⟩]).2.1 ⟨0, 0⟩ (by simp)

/-- C5 counterexample: with 2500 documents all older than the cutoff and
every upload succeeding, the run archives only 1500 documents in 2
batches (ids 0–999 and 2000–2499) and leaves ids 1000–1999 in the store,
against the claim's "deletes exactly those 2500" and "≥ 3 archive
objects": the `skip` offset keeps growing while each successful batch
shrinks the set it pages over. -/
theorem c5_counterexample :
    (archiveOldDocuments (fun _ => true) 1 "crawl_sessions" "ts" (mkDocs 0 2500)).2.1 =
        1500 ∧
    (archiveOldDocuments (fun _ => true) 1 "crawl_sessions" "ts" (mkDocs 0 2500)).2.2 =
      mkDocs 1000 1000 ∧
    (archiveOldDocuments (fun _ => true) 1 "crawl_sessions" "ts" (mkDocs 0 2500)).1.length =
      2 ∧
    oldOnes 1 (mkDocs 0 2500) = mkDocs 0 2500 ∧ (mkDocs 0 2500).length = 2500 := by
  have hb0 : ((oldOnes 1 (mkDocs 0 2500)).drop 0).take 1000 =
      ({ rid := 0, ttl := 0 } : RDoc) :: mkDocs 1 999 := by
    rw [oldOnes_mkDocs, List.drop_zero, mkDocs_take 0 1000 2500 (by omega)]
    exact mkDocs_cons 0 999
  have hids0 : (({ rid := 0, ttl := 0 } : RDoc) :: mkDocs 1 999).map (fun d => d.rid) =
      List.range' 0 1000 := by
    have h := mkDocs_map_rid 0 1000
    rw [show mkDocs 0 1000 = ({ rid := 0, ttl := 0 } : RDoc) :: mkDocs 1 999 from
      mkDocs_cons 0 999] at h
    exact h
  have hfil0 : (mkDocs 0 2500).filter
      (fun d =>
        ¬ ((({ rid := 0, ttl := 0 } : RDoc) :: mkDocs 1 999).map
            (fun d => d.rid)).contains d.rid) =
      mkDocs 1000 1500 := by
    simp only [hids0]
    rw [show mkDocs 0 2500 = mkDocs 0 1000 ++ mkDocs 1000 1500 from
      (by simpa using mkDocs_append 0 1000 1500)]
    rw [List.filter_append, mkDocs_filter_drop 0 1000 0 1000 (by omega) (by omega),
      mkDocs_filter_keep 1000 1500 0 1000 (Or.inr (by omega)), List.nil_append]
  have hb1 : ((oldOnes 1 (mkDocs 1000 1500)).drop (0 + 1000)).take 1000 =
      ({ rid := 2000, ttl := 0 } : RDoc) :: mkDocs 2001 499 := by
    rw [oldOnes_mkDocs, show (0 + 1000 : Nat) = 1000 from rfl,
      mkDocs_drop 1000 1000 1500 (by omega),
      List.take_of_length_le (by rw [mkDocs_length]; omega)]
    exact mkDocs_cons 2000 499
  have hids1 : (({ rid := 2000, ttl := 0 } : RDoc) :: mkDocs 2001 499).map
      (fun d => d.rid) = List.range' 2000 500 := by
    have h := mkDocs_map_rid 2000 500
    rw [show mkDocs 2000 500 = ({ rid := 2000, ttl := 0 } : RDoc) :: mkDocs 2001 499 from
      mkDocs_cons 2000 499] at h
    exact h
  have hfil1 : (mkDocs 1000 1500).filter
      (fun d =>
        ¬ ((({ rid := 2000, ttl := 0 } : RDoc) :: mkDocs 2001 499).map
            (fun d => d.rid)).contains d.rid) =
      mkDocs 1000 1000 := by
    simp only [hids1]
    rw [show mkDocs 1000 1500 = mkDocs 1000 1000 ++ mkDocs 2000 500 from
      (by simpa using mkDocs_append 1000 1000 500)]
    rw [List.filter_append, mkDocs_filter_keep 1000 1000 2000 500 (Or.inl (by omega)),
      mkDocs_filter_drop 2000 500 2000 500 (by omega) (by omega), List.append_nil]
  have hb2 : ((oldOnes 1 (mkDocs 1000 1000)).drop (0 + 1000 + 1000)).take 1000 =
      ([] : List RDoc) := by
    rw [oldOnes_mkDocs, List.drop_eq_nil_of_le (by rw [mkDocs_length]; omega)]
    rfl
  have hrun : archiveOldDocuments (fun _ => true) 1 "crawl_sessions" "ts" (mkDocs 0 2500) =
      ([{ key := generateArchiveKey "crawl_sessions" "ts" ⟨0, 0⟩
            ((mkDocs 1 999).getLastD ⟨0, 0⟩),
          docs := ⟨0, 0⟩ :: mkDocs 1 999 },
        { key := generateArchiveKey "crawl_sessions" "ts" ⟨2000, 0⟩
            ((mkDocs 2001 499).getLastD ⟨2000, 0⟩),
          docs := ⟨2000, 0⟩ :: mkDocs 2001 499 }],
        1500, mkDocs 1000 1000) := by
    rw [archiveOldDocuments,
      archiveLoop_step_ok (fun _ => true) 1 "crawl_sessions" "ts"
        ((mkDocs 0 2500).length) 0 0 (mkDocs 0 2500) ⟨0, 0⟩ (mkDocs 1 999) hb0 rfl,
      hfil0,
      show (mkDocs 0 2500).length = 2499 + 1 from by rw [mkDocs_length],
      archiveLoop_step_ok (fun _ => true) 1 "crawl_sessions" "ts"
        2499 (0 + 1) (0 + 1000) (mkDocs 1000 1500) ⟨2000, 0⟩ (mkDocs 2001 499) hb1 rfl,
      hfil1,
      show (2499 : Nat) = 2498 + 1 from rfl,
      archiveLoop_step_none (fun _ => true) 1 "crawl_sessions" "ts"
        2498 (0 + 1 + 1) (0 + 1000 + 1000) (mkDocs 1000 1000) hb2,
      mkDocs_length 1000 1500, mkDocs_length 1000 1000]
    norm_num
  exact ⟨by rw [hrun], by rw [hrun], by rw [hrun]; rfl,
    oldOnes_mkDocs 0 2500, mkDocs_length 0 2500⟩

end DocCrawler
